import Mathlib

/-!
Verification of the motion-planning / kinematics core of RepRapFirmware
(Move.cpp, ExpressionParser.cpp, StringParser.cpp) against its
natural-language specification.

Real arithmetic in the firmware is done in IEEE float; the embedding uses
exact rational arithmetic (ℚ).  Calls to the C library square root are
modelled by an explicit square-root parameter `sq : ℚ → ℚ`; theorems that
depend on the value of a square root either take hypotheses describing the
behaviour of `sq` at the points where it is called, or instantiate it with
the exact rational square root `ratSqrt` below.
-/
set_option maxHeartbeats 1000000

/-- Exact rational square root: `ratSqrt q` is the rational whose numerator
and denominator are the integer square roots of the numerator and
denominator of `q`.  On a perfect square of a non-negative rational it is
the exact square root. -/
def ratSqrt (q : ℚ) : ℚ :=
  (Int.sqrt q.num : ℚ) / (Nat.sqrt q.den : ℚ)

/-- A Cartesian (or per-tower) triple of rationals, standing for the C
array `float[AXES]` with `AXES = 3`. -/
structure Triple where
  x : ℚ
  y : ℚ
  z : ℚ
  deriving DecidableEq

/-- The `DeltaParameters` class of Move.cpp (delta-printer tower geometry
with the cached inverse-transform coefficients). The three per-tower
arrays `endstopAdjustments`, `towerX`, `towerY` are spelled out as fields
`…0`, `…1`, `…2` for the A, B, C towers (A/B/C alias X/Y/Z). -/
structure DeltaParameters where
  deltaMode : Bool
  diagonal : ℚ
  radius : ℚ
  printRadius : ℚ
  homedHeight : ℚ
  homedCarriageHeight : ℚ
  isEquilateral : Bool
  endstop0 : ℚ
  endstop1 : ℚ
  endstop2 : ℚ
  towerX0 : ℚ
  towerX1 : ℚ
  towerX2 : ℚ
  towerY0 : ℚ
  towerY1 : ℚ
  towerY2 : ℚ
  Xbc : ℚ
  Xca : ℚ
  Xab : ℚ
  Ybc : ℚ
  Yca : ℚ
  Yab : ℚ
  coreFa : ℚ
  coreFb : ℚ
  coreFc : ℚ
  Q : ℚ
  Q2 : ℚ
  D2 : ℚ
  deriving DecidableEq

/-- `towerX[axis]` of a `DeltaParameters`. -/
def DeltaParameters.towerX (p : DeltaParameters) : Fin 3 → ℚ
  | 0 => p.towerX0
  | 1 => p.towerX1
  | 2 => p.towerX2

/-- `towerY[axis]` of a `DeltaParameters`. -/
def DeltaParameters.towerY (p : DeltaParameters) : Fin 3 → ℚ
  | 0 => p.towerY0
  | 1 => p.towerY1
  | 2 => p.towerY2

/-- `endstopAdjustments[axis]` of a `DeltaParameters`. -/
def DeltaParameters.endstop (p : DeltaParameters) : Fin 3 → ℚ
  | 0 => p.endstop0
  | 1 => p.endstop1
  | 2 => p.endstop2

/-- `DeltaParameters::Transform`: the carriage height for one tower from a
Cartesian coordinate,
`machinePos[Z] + sqrt(D2 - fsquare(x - towerX[axis]) - fsquare(y - towerY[axis]))`. -/
def DeltaParameters.Transform (sq : ℚ → ℚ) (p : DeltaParameters)
    (pos : Triple) (axis : Fin 3) : ℚ :=
  pos.z + sq (p.D2 - (pos.x - p.towerX axis) ^ 2 - (pos.y - p.towerY axis) ^ 2)

/-- `Fa = coreFa + fsquare(Ha)` of `DeltaParameters::InverseTransform`. -/
def itFa (p : DeltaParameters) (Ha : ℚ) : ℚ := p.coreFa + Ha ^ 2

/-- `Fb = coreFb + fsquare(Hb)` of `DeltaParameters::InverseTransform`. -/
def itFb (p : DeltaParameters) (Hb : ℚ) : ℚ := p.coreFb + Hb ^ 2

/-- `Fc = coreFc + fsquare(Hc)` of `DeltaParameters::InverseTransform`. -/
def itFc (p : DeltaParameters) (Hc : ℚ) : ℚ := p.coreFc + Hc ^ 2

/-- The local `P` of `DeltaParameters::InverseTransform`. -/
def itP (p : DeltaParameters) (Ha Hb Hc : ℚ) : ℚ :=
  p.Xbc * itFa p Ha + p.Xca * itFb p Hb + p.Xab * itFc p Hc

/-- The local `S` of `DeltaParameters::InverseTransform`. -/
def itS (p : DeltaParameters) (Ha Hb Hc : ℚ) : ℚ :=
  p.Ybc * itFa p Ha + p.Yca * itFb p Hb + p.Yab * itFc p Hc

/-- The local `R` of `DeltaParameters::InverseTransform`. -/
def itR (p : DeltaParameters) (Ha Hb Hc : ℚ) : ℚ :=
  2 * (p.Xbc * Ha + p.Xca * Hb + p.Xab * Hc)

/-- The local `U` of `DeltaParameters::InverseTransform`. -/
def itU (p : DeltaParameters) (Ha Hb Hc : ℚ) : ℚ :=
  2 * (p.Ybc * Ha + p.Yca * Hb + p.Yab * Hc)

/-- The local `A = U2 + R2 + Q2` of `DeltaParameters::InverseTransform`. -/
def itA (p : DeltaParameters) (Ha Hb Hc : ℚ) : ℚ :=
  itU p Ha Hb Hc ^ 2 + itR p Ha Hb Hc ^ 2 + p.Q2

/-- The local `minusHalfB` of `DeltaParameters::InverseTransform`. -/
def itMinusHalfB (p : DeltaParameters) (Ha Hb Hc : ℚ) : ℚ :=
  itS p Ha Hb Hc * itU p Ha Hb Hc + itP p Ha Hb Hc * itR p Ha Hb Hc
    + Ha * p.Q2 + p.towerX0 * itU p Ha Hb Hc * p.Q
    - p.towerY0 * itR p Ha Hb Hc * p.Q

/-- The local `C` of `DeltaParameters::InverseTransform`. -/
def itC (p : DeltaParameters) (Ha Hb Hc : ℚ) : ℚ :=
  (itS p Ha Hb Hc + p.towerX0 * p.Q) ^ 2 + (itP p Ha Hb Hc - p.towerY0 * p.Q) ^ 2
    + (Ha ^ 2 - p.D2) * p.Q2

/-- The local `z = (minusHalfB - sqrtf(fsquare(minusHalfB) - A * C)) / A`
of `DeltaParameters::InverseTransform`. -/
def itZ (sq : ℚ → ℚ) (p : DeltaParameters) (Ha Hb Hc : ℚ) : ℚ :=
  (itMinusHalfB p Ha Hb Hc
    - sq (itMinusHalfB p Ha Hb Hc ^ 2 - itA p Ha Hb Hc * itC p Ha Hb Hc))
    / itA p Ha Hb Hc

/-- `DeltaParameters::InverseTransform`: Cartesian coordinates from the
three carriage heights. -/
def DeltaParameters.InverseTransform (sq : ℚ → ℚ) (p : DeltaParameters)
    (Ha Hb Hc : ℚ) : Triple :=
  let z := itZ sq p Ha Hb Hc
  { x := (itU p Ha Hb Hc * z - itS p Ha Hb Hc) / p.Q
    y := (itP p Ha Hb Hc - itR p Ha Hb Hc * z) / p.Q
    z := z }

/-- `DeltaParameters::Recalc`: recompute `deltaMode` and the cached
coefficients, then recompute `homedCarriageHeight` from an inverse
transform of the homed carriage heights.  NOTE: the third argument the
source passes to `InverseTransform` is `tempHeight + endstopAdjustments[X_AXIS]`
(the A-tower adjustment again), exactly as on line 65 of Move.cpp. -/
def DeltaParameters.Recalc (sq : ℚ → ℚ) (p : DeltaParameters) : DeltaParameters :=
  if p.radius > 0 ∧ p.diagonal > p.radius then
    let p1 : DeltaParameters :=
      { p with
        deltaMode := true
        Xbc := p.towerX2 - p.towerX1
        Xca := p.towerX0 - p.towerX2
        Xab := p.towerX1 - p.towerX0
        Ybc := p.towerY2 - p.towerY1
        Yca := p.towerY0 - p.towerY2
        Yab := p.towerY1 - p.towerY0
        coreFa := p.towerX0 ^ 2 + p.towerY0 ^ 2
        coreFb := p.towerX1 ^ 2 + p.towerY1 ^ 2
        coreFc := p.towerX2 ^ 2 + p.towerY2 ^ 2
        Q := 2 * ((p.towerX0 - p.towerX2) * (p.towerY1 - p.towerY0)
                  - (p.towerX1 - p.towerX0) * (p.towerY0 - p.towerY2))
        Q2 := (2 * ((p.towerX0 - p.towerX2) * (p.towerY1 - p.towerY0)
                  - (p.towerX1 - p.towerX0) * (p.towerY0 - p.towerY2))) ^ 2
        D2 := p.diagonal ^ 2 }
    let tempHeight := p.diagonal
    let machinePos := p1.InverseTransform sq
      (tempHeight + p.endstop0) (tempHeight + p.endstop1) (tempHeight + p.endstop0)
    { p1 with homedCarriageHeight := p.homedHeight + tempHeight - machinePos.z }
  else
    { p with deltaMode := false }

/-- `DeltaParameters::NormaliseEndstopAdjustments`: make the average of the
endstop adjustments zero by shifting the homed heights. -/
def DeltaParameters.NormaliseEndstopAdjustments (p : DeltaParameters) : DeltaParameters :=
  let eav := (p.endstop0 + p.endstop1 + p.endstop2) / 3
  { p with
    endstop0 := p.endstop0 - eav
    endstop1 := p.endstop1 - eav
    endstop2 := p.endstop2 - eav
    homedHeight := p.homedHeight + eav
    homedCarriageHeight := p.homedCarriageHeight + eav }

/-- Modelled from the spec: `DeltaParameters::GetHomedCarriageHeight(axis)`
is declared in the missing Move.h header; per the spec it is the
per-tower homed carriage height `homedCarriageHeight + endstopAdjustments[axis]`. -/
def DeltaParameters.GetHomedCarriageHeight (p : DeltaParameters) (axis : Fin 3) : ℚ :=
  p.homedCarriageHeight + p.endstop axis

/-- `DeltaParameters::SetRadius`: place the towers on a regular triangle of
radius `r` (using `cos30 = sqrtf(3)/2`, `sin30 = 0.5`) and `Recalc`. -/
def DeltaParameters.SetRadius (sq : ℚ → ℚ) (p : DeltaParameters) (r : ℚ) : DeltaParameters :=
  let cos30 := sq 3 / 2
  let sin30 : ℚ := 1 / 2
  DeltaParameters.Recalc sq
    { p with
      radius := r
      isEquilateral := true
      towerX0 := -(r * cos30)
      towerX1 := r * cos30
      towerX2 := 0
      towerY0 := -(r * sin30)
      towerY1 := -(r * sin30)
      towerY2 := r }

/-- The invariant that the cached inverse-transform coefficients of a
`DeltaParameters` agree with its tower positions, exactly as `Recalc`
assigns them (the fields `Recalc` reads are towers and `diagonal`). -/
def RecalcConsistent (p : DeltaParameters) : Prop :=
  p.Xbc = p.towerX2 - p.towerX1 ∧
  p.Xca = p.towerX0 - p.towerX2 ∧
  p.Xab = p.towerX1 - p.towerX0 ∧
  p.Ybc = p.towerY2 - p.towerY1 ∧
  p.Yca = p.towerY0 - p.towerY2 ∧
  p.Yab = p.towerY1 - p.towerY0 ∧
  p.coreFa = p.towerX0 ^ 2 + p.towerY0 ^ 2 ∧
  p.coreFb = p.towerX1 ^ 2 + p.towerY1 ^ 2 ∧
  p.coreFc = p.towerX2 ^ 2 + p.towerY2 ^ 2 ∧
  p.Q = 2 * (p.Xca * p.Yab - p.Xab * p.Yca) ∧
  p.Q2 = p.Q ^ 2

instance (p : DeltaParameters) : Decidable (RecalcConsistent p) := by
  unfold RecalcConsistent; infer_instance

/-- The delta parameter set used to exhibit the `Recalc` homed-carriage-height
bug: a rational near-equilateral geometry (towers `(-9,-12)`, `(9,-12)`,
`(0,15)`, diagonal 25, radius 15, homed height 100) whose C-tower endstop
adjustment (3) differs from the A-tower one (0). -/
def pC1bug : DeltaParameters :=
  { deltaMode := false, diagonal := 25, radius := 15, printRadius := 0,
    homedHeight := 100, homedCarriageHeight := 0, isEquilateral := false,
    endstop0 := 0, endstop1 := 0, endstop2 := 3,
    towerX0 := -9, towerX1 := 9, towerX2 := 0,
    towerY0 := -12, towerY1 := -12, towerY2 := 15,
    Xbc := 0, Xca := 0, Xab := 0, Ybc := 0, Yca := 0, Yab := 0,
    coreFa := 0, coreFb := 0, coreFc := 0, Q := 0, Q2 := 0, D2 := 0 }

/-- The square-root oracle for the `pC1bug` computation: it is the exact
square root at the discriminant reached through the source's call
`InverseTransform(d+e_A, d+e_B, d+e_A)` (a perfect square there), and the
integer-floor square root at the discriminant reached through the
spec's formula `InverseTransform(d+e_A, d+e_B, d+e_C)`. -/
def sqC1 (q : ℚ) : ℚ :=
  if q = 357046722662400 then 18895680
  else if q = 359446319077824 then 18959069
  else 0

/-- The concrete delta parameter set for the round-trip witness: towers at
`(-9,-12)`, `(9,-12)`, `(0,15)`, diagonal 25, with the cached coefficients
holding exactly the values `Recalc` computes for this geometry. -/
def pC2 : DeltaParameters :=
  { deltaMode := true, diagonal := 25, radius := 15, printRadius := 0,
    homedHeight := 240, homedCarriageHeight := 0, isEquilateral := false,
    endstop0 := 0, endstop1 := 0, endstop2 := 0,
    towerX0 := -9, towerX1 := 9, towerX2 := 0,
    towerY0 := -12, towerY1 := -12, towerY2 := 15,
    Xbc := -9, Xca := -9, Xab := 18, Ybc := 27, Yca := -27, Yab := 0,
    coreFa := 225, coreFb := 225, coreFc := 225,
    Q := 972, Q2 := 944784, D2 := 625 }

/-- C's `roundf`: round to nearest, ties away from zero, as used by
`Move::MotorEndPointToMachine`. -/
def roundf (q : ℚ) : ℤ :=
  if 0 ≤ q then ⌊q + 1 / 2⌋ else -⌊-q + 1 / 2⌋

/-- `Move::MotorEndPointToMachine`: steps from units for one drive,
`(int32_t)roundf(coord * stepsPerUnit)`; the drive's steps-per-unit value
(a platform query in the source) is passed explicitly. -/
def MotorEndPointToMachine (stepsPerUnit coord : ℚ) : ℤ :=
  roundf (coord * stepsPerUnit)

/-- The kinematic configuration of the `Move` class: the delta parameters,
the `coreXYMode` selector (0 = Cartesian, 1 = CoreXY, 2 = CoreXZ,
3 = CoreYZ) and the platform's steps-per-unit for the three axis drives. -/
structure MoveKin where
  deltaParams : DeltaParameters
  coreXYMode : ℕ
  stepsPerUnit0 : ℚ
  stepsPerUnit1 : ℚ
  stepsPerUnit2 : ℚ

/-- `Move::IsDeltaMode`. -/
def MoveKin.IsDeltaMode (m : MoveKin) : Bool := m.deltaParams.deltaMode

/-- `Move::MotorTransform`: Cartesian coordinates to motor steps for the
three axis drives (delta, CoreXY/XZ/YZ or Cartesian). -/
def MoveKin.MotorTransform (sq : ℚ → ℚ) (m : MoveKin) (machinePos : Triple) :
    ℤ × ℤ × ℤ :=
  if m.IsDeltaMode then
    (MotorEndPointToMachine m.stepsPerUnit0 (m.deltaParams.Transform sq machinePos 0),
     MotorEndPointToMachine m.stepsPerUnit1 (m.deltaParams.Transform sq machinePos 1),
     MotorEndPointToMachine m.stepsPerUnit2 (m.deltaParams.Transform sq machinePos 2))
  else if m.coreXYMode = 1 then
    (MotorEndPointToMachine m.stepsPerUnit0 (machinePos.x + machinePos.y),
     MotorEndPointToMachine m.stepsPerUnit1 (machinePos.y - machinePos.x),
     MotorEndPointToMachine m.stepsPerUnit2 machinePos.z)
  else if m.coreXYMode = 2 then
    (MotorEndPointToMachine m.stepsPerUnit0 (machinePos.x + machinePos.z),
     MotorEndPointToMachine m.stepsPerUnit1 machinePos.y,
     MotorEndPointToMachine m.stepsPerUnit2 (machinePos.z - machinePos.x))
  else if m.coreXYMode = 3 then
    (MotorEndPointToMachine m.stepsPerUnit0 machinePos.x,
     MotorEndPointToMachine m.stepsPerUnit1 (machinePos.y + machinePos.z),
     MotorEndPointToMachine m.stepsPerUnit2 (machinePos.z - machinePos.y))
  else
    (MotorEndPointToMachine m.stepsPerUnit0 machinePos.x,
     MotorEndPointToMachine m.stepsPerUnit1 machinePos.y,
     MotorEndPointToMachine m.stepsPerUnit2 machinePos.z)

/-- `Move::MachineToEndPoint` restricted to the three axes: motor
coordinates back to machine coordinates (delta inverse transform, or the
analytic inverses of the Core modes, or Cartesian). -/
def MoveKin.MachineToEndPoint (sq : ℚ → ℚ) (m : MoveKin) (motorPos : ℤ × ℤ × ℤ) :
    Triple :=
  if m.IsDeltaMode then
    m.deltaParams.InverseTransform sq
      ((motorPos.1 : ℚ) / m.stepsPerUnit0)
      ((motorPos.2.1 : ℚ) / m.stepsPerUnit1)
      ((motorPos.2.2 : ℚ) / m.stepsPerUnit2)
  else if m.coreXYMode = 1 then
    { x := ((motorPos.1 : ℚ) * m.stepsPerUnit1 - (motorPos.2.1 : ℚ) * m.stepsPerUnit0)
            / (2 * m.stepsPerUnit0 * m.stepsPerUnit1)
      y := ((motorPos.1 : ℚ) * m.stepsPerUnit1 + (motorPos.2.1 : ℚ) * m.stepsPerUnit0)
            / (2 * m.stepsPerUnit0 * m.stepsPerUnit1)
      z := (motorPos.2.2 : ℚ) / m.stepsPerUnit2 }
  else if m.coreXYMode = 2 then
    { x := ((motorPos.1 : ℚ) * m.stepsPerUnit2 - (motorPos.2.2 : ℚ) * m.stepsPerUnit0)
            / (2 * m.stepsPerUnit0 * m.stepsPerUnit2)
      y := (motorPos.2.1 : ℚ) / m.stepsPerUnit1
      z := ((motorPos.1 : ℚ) * m.stepsPerUnit2 + (motorPos.2.2 : ℚ) * m.stepsPerUnit0)
            / (2 * m.stepsPerUnit0 * m.stepsPerUnit2) }
  else if m.coreXYMode = 3 then
    { x := (motorPos.1 : ℚ) / m.stepsPerUnit0
      y := ((motorPos.2.1 : ℚ) * m.stepsPerUnit2 - (motorPos.2.2 : ℚ) * m.stepsPerUnit1)
            / (2 * m.stepsPerUnit1 * m.stepsPerUnit2)
      z := ((motorPos.2.1 : ℚ) * m.stepsPerUnit2 + (motorPos.2.2 : ℚ) * m.stepsPerUnit1)
            / (2 * m.stepsPerUnit1 * m.stepsPerUnit2) }
  else
    { x := (motorPos.1 : ℚ) / m.stepsPerUnit0
      y := (motorPos.2.1 : ℚ) / m.stepsPerUnit1
      z := (motorPos.2.2 : ℚ) / m.stepsPerUnit2 }

/-- The CoreXY configuration of claim C6: `coreXYMode = 1`, not in delta
mode, unit steps-per-mm on every drive. -/
def mC6 : MoveKin :=
  { deltaParams :=
      { deltaMode := false, diagonal := 0, radius := 0, printRadius := 0,
        homedHeight := 0, homedCarriageHeight := 0, isEquilateral := true,
        endstop0 := 0, endstop1 := 0, endstop2 := 0,
        towerX0 := 0, towerX1 := 0, towerX2 := 0,
        towerY0 := 0, towerY1 := 0, towerY2 := 0,
        Xbc := 0, Xca := 0, Xab := 0, Ybc := 0, Yca := 0, Yab := 0,
        coreFa := 0, coreFb := 0, coreFc := 0, Q := 0, Q2 := 0, D2 := 0 }
    coreXYMode := 1
    stepsPerUnit0 := 1
    stepsPerUnit1 := 1
    stepsPerUnit2 := 1 }

/-- Modelled from the spec: the constant `MaxProbePoints` is declared in
the missing Move.h header; the era headers set it to 16. -/
def MaxProbePoints : ℕ := 16

/-- Modelled from the spec: the barycentric epsilon `TRIANGLE_0` is
declared in the missing headers ("a small epsilon"); the era headers use
-0.001.  Its value does not matter for the claims proved here. -/
def TRIANGLE_0 : ℚ := -1 / 1000

/-- The bed-compensation state of the `Move` class: the probe point table
(coordinates, heights and their set-masks, spelled as three Bool
functions), the plane coefficients, the bilinear rectangle scale factors,
the 5-point barycentric auxiliary table and the `identityBedTransform`
flag. -/
structure BedState where
  identityBedTransform : Bool
  aX : ℚ
  aY : ℚ
  aC : ℚ
  xRectangle : ℚ
  yRectangle : ℚ
  xBedProbePoints : ℕ → ℚ
  yBedProbePoints : ℕ → ℚ
  zBedProbePoints : ℕ → ℚ
  baryXBedProbePoints : ℕ → ℚ
  baryYBedProbePoints : ℕ → ℚ
  baryZBedProbePoints : ℕ → ℚ
  probeXSet : ℕ → Bool
  probeYSet : ℕ → Bool
  probeZSet : ℕ → Bool

/-- `Move::AllProbeCoordinatesSet`: `probePointSet[index] == (xSet | ySet | zSet)`. -/
def BedState.AllProbeCoordinatesSet (bs : BedState) (index : ℕ) : Bool :=
  bs.probeXSet index && bs.probeYSet index && bs.probeZSet index

/-- `Move::NumberOfProbePoints`: the index of the first probe point whose
coordinates are not all set, or `MaxProbePoints` when all are set. -/
def BedState.NumberOfProbePoints (bs : BedState) : ℕ :=
  List.findIdx (fun i => ! bs.AllProbeCoordinatesSet i) (List.range MaxProbePoints)

/-- `Move::SecondDegreeTransformZ`: ruled-surface (bilinear) interpolation
over the four-point rectangle. -/
def BedState.SecondDegreeTransformZ (bs : BedState) (x y : ℚ) : ℚ :=
  let x' := (x - bs.xBedProbePoints 0) * bs.xRectangle
  let y' := (y - bs.yBedProbePoints 0) * bs.yRectangle
  (1 - x') * (1 - y') * bs.zBedProbePoints 0 + x' * (1 - y') * bs.zBedProbePoints 3
    + (1 - x') * y' * bs.zBedProbePoints 1 + x' * y' * bs.zBedProbePoints 2

/-- `Move::BarycentricCoordinates`: the barycentric coordinates `(l1,l2,l3)`
of `(x,y)` with respect to bary probe points `p1 p2 p3`. -/
def BedState.BarycentricCoordinates (bs : BedState) (p1 p2 p3 : ℕ) (x y : ℚ) :
    ℚ × ℚ × ℚ :=
  let y23 := bs.baryYBedProbePoints p2 - bs.baryYBedProbePoints p3
  let x3 := x - bs.baryXBedProbePoints p3
  let x32 := bs.baryXBedProbePoints p3 - bs.baryXBedProbePoints p2
  let y3 := y - bs.baryYBedProbePoints p3
  let x13 := bs.baryXBedProbePoints p1 - bs.baryXBedProbePoints p3
  let y13 := bs.baryYBedProbePoints p1 - bs.baryYBedProbePoints p3
  let iDet := 1 / (y23 * x13 + x32 * y13)
  let l1 := (y23 * x3 + x32 * y3) * iDet
  let l2 := (-y13 * x3 + x13 * y3) * iDet
  (l1, l2, 1 - l1 - l2)

/-- One iteration of the `Move::TriangleZ` loop: interpolate over the
triangle `(i, (i+1) % 4, 4)` if `(x,y)` lies inside it. -/
def triangleZTry (bs : BedState) (x y : ℚ) (i : ℕ) : Option ℚ :=
  let j := (i + 1) % 4
  let l := bs.BarycentricCoordinates i j 4 x y
  if l.1 > TRIANGLE_0 ∧ l.2.1 > TRIANGLE_0 ∧ l.2.2 > TRIANGLE_0 then
    some (l.1 * bs.baryZBedProbePoints i + l.2.1 * bs.baryZBedProbePoints j
      + l.2.2 * bs.baryZBedProbePoints 4)
  else
    none

/-- `Move::TriangleZ`: try the four triangles fanned around the centre
point in order; if the point is outside all of them, report the error and
return 0. -/
def BedState.TriangleZ (bs : BedState) (x y : ℚ) : ℚ :=
  match triangleZTry bs x y 0 with
  | some v => v
  | none =>
    match triangleZTry bs x y 1 with
    | some v => v
    | none =>
      match triangleZTry bs x y 2 with
      | some v => v
      | none =>
        match triangleZTry bs x y 3 with
        | some v => v
        | none => 0

/-- `Move::BedTransform`: add the bed compensation to the Z coordinate
(switching on the number of probe points; the `default` branch of the
switch only reports an error and leaves the point unchanged). -/
def BedState.BedTransform (bs : BedState) (pt : Triple) : Triple :=
  if bs.identityBedTransform then pt
  else
    let n := bs.NumberOfProbePoints
    if n = 0 then pt
    else if n = 3 then { pt with z := pt.z + bs.aX * pt.x + bs.aY * pt.y + bs.aC }
    else if n = 4 then { pt with z := pt.z + bs.SecondDegreeTransformZ pt.x pt.y }
    else if n = 5 then { pt with z := pt.z + bs.TriangleZ pt.x pt.y }
    else pt

/-- `Move::InverseBedTransform`: subtract the same bed compensation from
the Z coordinate. -/
def BedState.InverseBedTransform (bs : BedState) (pt : Triple) : Triple :=
  if bs.identityBedTransform then pt
  else
    let n := bs.NumberOfProbePoints
    if n = 0 then pt
    else if n = 3 then { pt with z := pt.z - (bs.aX * pt.x + bs.aY * pt.y + bs.aC) }
    else if n = 4 then { pt with z := pt.z - bs.SecondDegreeTransformZ pt.x pt.y }
    else if n = 5 then { pt with z := pt.z - bs.TriangleZ pt.x pt.y }
    else pt

/-- The concrete bed-compensation state for the C10 witness: the identity
transform with an empty probe table. -/
def bsC10 : BedState :=
  { identityBedTransform := true, aX := 0, aY := 0, aC := 0,
    xRectangle := 0, yRectangle := 0,
    xBedProbePoints := fun _ => 0, yBedProbePoints := fun _ => 0,
    zBedProbePoints := fun _ => 0,
    baryXBedProbePoints := fun _ => 0, baryYBedProbePoints := fun _ => 0,
    baryZBedProbePoints := fun _ => 0,
    probeXSet := fun _ => false, probeYSet := fun _ => false,
    probeZSet := fun _ => false }

/-- Modelled from the spec: the block types of the job-file block stack
(GCodeMachineState is not under src/); spec section 4.H. -/
inductive BlockType where
  | plain
  | ifTrue
  | ifFalseNoneTrue
  | ifFalseHadTrue
  | loop
  deriving DecidableEq

/-- `StringParser::ProcessBreakCommand`, acting on the job-file block
stack.  The stack is a nonempty list, innermost block first; the last
element is the block at indent level 0, so `indentLevel` is the list
length minus one.  Modelled from the spec for the missing
`GCodeMachineState` operations: `EndBlock` pops the innermost block,
`CurrentBlockState` is the head, `SetPlainBlock` replaces the head by
`plain`.  The do-while of the source pops the innermost block first
(without inspecting it), then checks the new current block; it throws
when `indentLevel` is 0 at the top of an iteration. -/
def processBreakCommand : List BlockType → Except String (List BlockType)
  | [] => .error "break was not inside a loop"
  | [_] => .error "break was not inside a loop"
  | _ :: b :: rest =>
      if b = BlockType.loop then .ok (BlockType.plain :: rest)
      else processBreakCommand (b :: rest)

/-- `DeltaParameters::ComputeDerivative`: numerical derivative of the
inverse-transform height with respect to parameter `deriv`
(0-2 endstops, 3-4 front tower X positions, 5 rear tower Y, 6 diagonal)
by a symmetric difference with perturbation 0.2 mm. -/
def DeltaParameters.ComputeDerivative (sq : ℚ → ℚ) (p : DeltaParameters)
    (deriv : ℕ) (ha hb hc : ℚ) : ℚ :=
  let perturb : ℚ := 1 / 5
  let hiParams : DeltaParameters :=
    match deriv with
    | 3 => { p with towerX0 := p.towerX0 + perturb }
    | 4 => { p with towerX1 := p.towerX1 + perturb }
    | 5 =>
      let yAdj := perturb * (1 / 3)
      { p with towerY0 := p.towerY0 - yAdj, towerY1 := p.towerY1 - yAdj,
               towerY2 := p.towerY2 + (perturb - yAdj) }
    | 6 => { p with diagonal := p.diagonal + perturb }
    | _ => p
  let loParams : DeltaParameters :=
    match deriv with
    | 3 => { p with towerX0 := p.towerX0 - perturb }
    | 4 => { p with towerX1 := p.towerX1 - perturb }
    | 5 =>
      let yAdj := perturb * (1 / 3)
      { p with towerY0 := p.towerY0 + yAdj, towerY1 := p.towerY1 + yAdj,
               towerY2 := p.towerY2 - (perturb - yAdj) }
    | 6 => { p with diagonal := p.diagonal - perturb }
    | _ => p
  let hiParams := hiParams.Recalc sq
  let loParams := loParams.Recalc sq
  let zHi := (hiParams.InverseTransform sq
    (if deriv = 0 then ha + perturb else ha)
    (if deriv = 1 then hb + perturb else hb)
    (if deriv = 2 then hc + perturb else hc)).z
  let zLo := (loParams.InverseTransform sq
    (if deriv = 0 then ha - perturb else ha)
    (if deriv = 1 then hb - perturb else hb)
    (if deriv = 2 then hc - perturb else hc)).z
  (zHi - zLo) / (2 * perturb)

/-- `DeltaParameters::AdjustFour`: add the endstop corrections,
normalise them, and set the adjusted radius (the array argument is
modelled as a function from indices). -/
def DeltaParameters.AdjustFour (sq : ℚ → ℚ) (p : DeltaParameters) (v : ℕ → ℚ) :
    DeltaParameters :=
  let p1 := { p with endstop0 := p.endstop0 + v 0, endstop1 := p.endstop1 + v 1,
                     endstop2 := p.endstop2 + v 2 }
  (p1.NormaliseEndstopAdjustments).SetRadius sq (p.radius + v 3)

/-- `DeltaParameters::AdjustSeven`: add the endstop corrections, normalise
them, move the tower positions and the diagonal, recalculate, then shift
the homed heights so that the net change of the A-tower carriage height is
the requested endstop change. -/
def DeltaParameters.AdjustSeven (sq : ℚ → ℚ) (p : DeltaParameters) (v : ℕ → ℚ) :
    DeltaParameters :=
  let oldCarriageHeightA := p.GetHomedCarriageHeight 0
  let p1 := { p with endstop0 := p.endstop0 + v 0, endstop1 := p.endstop1 + v 1,
                     endstop2 := p.endstop2 + v 2 }
  let p2 := p1.NormaliseEndstopAdjustments
  let yAdj := v 5 * (1 / 3)
  let p3 := { p2 with
    towerX0 := p2.towerX0 + v 3
    towerX1 := p2.towerX1 + v 4
    towerY0 := p2.towerY0 - yAdj
    towerY1 := p2.towerY1 - yAdj
    towerY2 := p2.towerY2 + (v 5 - yAdj)
    diagonal := p2.diagonal + v 6
    isEquilateral := false }
  let p4 := p3.Recalc sq
  let heightError := p4.GetHomedCarriageHeight 0 - oldCarriageHeightA - v 0
  { p4 with homedHeight := p4.homedHeight - heightError,
            homedCarriageHeight := p4.homedCarriageHeight - heightError }

/-- The C `(int32_t)` cast of a float: truncation toward zero. -/
def truncInt32 (q : ℚ) : ℤ := if 0 ≤ q then ⌊q⌋ else -⌊-q⌋

/-- The part of the `Move` state read and written by delta calibration:
the delta parameters, the probe point table, the drive coordinates of the
last queued DDA, the live endpoints and validity flag, and the platform's
steps-per-unit. -/
structure CalState where
  deltaParams : DeltaParameters
  xBedProbePoints : ℕ → ℚ
  yBedProbePoints : ℕ → ℚ
  zBedProbePoints : ℕ → ℚ
  lastQueuedEndCoord0 : ℤ
  lastQueuedEndCoord1 : ℤ
  lastQueuedEndCoord2 : ℤ
  liveEndPoints0 : ℤ
  liveEndPoints1 : ℤ
  liveEndPoints2 : ℤ
  stepsPerUnit0 : ℚ
  stepsPerUnit1 : ℚ
  stepsPerUnit2 : ℚ
  liveCoordinatesValid : Bool

/-- `Move::AdjustDeltaParameters`: apply the 4- or 7-factor adjustment and
correct the queued end coordinates and live endpoints by the change of the
homed carriage heights. -/
def Move.AdjustDeltaParameters (sq : ℚ → ℚ) (s : CalState) (v : ℕ → ℚ)
    (allSeven : Bool) : CalState :=
  let h0 := s.deltaParams.GetHomedCarriageHeight 0
  let h1 := s.deltaParams.GetHomedCarriageHeight 1
  let h2 := s.deltaParams.GetHomedCarriageHeight 2
  let p' := if allSeven then s.deltaParams.AdjustSeven sq v
            else s.deltaParams.AdjustFour sq v
  let ep0 := s.lastQueuedEndCoord0
    + truncInt32 ((p'.GetHomedCarriageHeight 0 - h0) * s.stepsPerUnit0)
  let ep1 := s.lastQueuedEndCoord1
    + truncInt32 ((p'.GetHomedCarriageHeight 1 - h1) * s.stepsPerUnit1)
  let ep2 := s.lastQueuedEndCoord2
    + truncInt32 ((p'.GetHomedCarriageHeight 2 - h2) * s.stepsPerUnit2)
  { s with deltaParams := p',
           lastQueuedEndCoord0 := ep0, lastQueuedEndCoord1 := ep1,
           lastQueuedEndCoord2 := ep2,
           liveEndPoints0 := ep0, liveEndPoints1 := ep1, liveEndPoints2 := ep2,
           liveCoordinatesValid := false }

/-- Modelled from the spec: `MaxDeltaCalibrationPoints` is declared in the
missing Move.h header; the era headers set it to `MaxProbePoints`. -/
def MaxDeltaCalibrationPoints : ℕ := MaxProbePoints

/-- `Move::DoDeltaCalibration`: report an error and change nothing when the
probe count is outside `[4, MaxDeltaCalibrationPoints]`; otherwise build
the derivative matrix over the probe points, form the normal equations,
solve them (the Gauss-Jordan solver lives in the missing `FixedMatrix`
header and is passed as the `gaussJordan` parameter), and apply the 4- or
7-factor adjustment.  Returns the new state and whether the probe-count
error was reported. -/
def Move.DoDeltaCalibration (sq : ℚ → ℚ)
    (gaussJordan : (ℕ → ℕ → ℚ) → ℕ → (ℕ → ℚ))
    (numPoints : ℕ) (s : CalState) : CalState × Bool :=
  if numPoints < 4 ∨ MaxDeltaCalibrationPoints < numPoints then
    (s, true)
  else
    let numFactors := if 7 ≤ numPoints then 7 else 4
    let ha := fun i => s.deltaParams.Transform sq
      ⟨s.xBedProbePoints i, s.yBedProbePoints i, 0⟩ 0
    let hb := fun i => s.deltaParams.Transform sq
      ⟨s.xBedProbePoints i, s.yBedProbePoints i, 0⟩ 1
    let hc := fun i => s.deltaParams.Transform sq
      ⟨s.xBedProbePoints i, s.yBedProbePoints i, 0⟩ 2
    let derivativeMatrix : ℕ → ℕ → ℚ := fun i j =>
      s.deltaParams.ComputeDerivative sq j (ha i) (hb i) (hc i)
    let normalMatrix : ℕ → ℕ → ℚ := fun i j =>
      if j = numFactors then
        ∑ k ∈ Finset.range numPoints, derivativeMatrix k i * (-(s.zBedProbePoints k))
      else
        ∑ k ∈ Finset.range numPoints, derivativeMatrix k i * derivativeMatrix k j
    let solution := gaussJordan normalMatrix numFactors
    (Move.AdjustDeltaParameters sq s solution (numFactors = 7), false)

/-- A trivial concrete calibration state for the C8 witness. -/
def sC8 : CalState :=
  { deltaParams := pC2,
    xBedProbePoints := fun _ => 0, yBedProbePoints := fun _ => 0,
    zBedProbePoints := fun _ => 0,
    lastQueuedEndCoord0 := 0, lastQueuedEndCoord1 := 0, lastQueuedEndCoord2 := 0,
    liveEndPoints0 := 0, liveEndPoints1 := 0, liveEndPoints2 := 0,
    stepsPerUnit0 := 1, stepsPerUnit1 := 1, stepsPerUnit2 := 1,
    liveCoordinatesValid := true }

/-- The lifecycle states of a move descriptor (spec section 3; the DDA
class itself is not under src/). -/
inductive DdaState where
  | empty
  | provisional
  | frozen
  | executing
  | completed
  deriving DecidableEq

/-- Modelled from the spec: the fields of one move descriptor (DDA) that
Move.cpp reads through the missing DDA class interface: the lifecycle
state, `CanPause()`, `GetFilePosition()`, the Cartesian end coordinates
returned by `GetEndCoordinate(axis, false)`, `GetRequestedSpeed()` and
`CalcTime()`. -/
structure DdaRec where
  state : DdaState
  canPause : Bool
  filePosition : ℕ
  endCoordinates : Triple
  requestedSpeed : ℚ
  calcTime : ℚ

/-- `noFilePosition`, the 32-bit all-ones sentinel for "no file position". -/
def noFilePosition : ℕ := 4294967295

/-- The move ring of the planner: the descriptors as a circular array of
length `n` indexed by `Fin n` (the source's doubly linked ring of
`DdaRingLength` descriptors), the add and get cursors, the ISR-owned
current descriptor and the pause flag `addNoMoreMoves`. -/
structure MoveState (n : ℕ) where
  ddas : Fin n → DdaRec
  addPointer : Fin n
  getPointer : Fin n
  currentDda : Option (Fin n)
  addNoMoreMoves : Bool

/-- `DDA::GetNext()`: the successor in the ring. -/
def ringNext {n : ℕ} [NeZero n] (a : Fin n) : Fin n :=
  ⟨(a.val + 1) % n, Nat.mod_lt _ (Nat.pos_of_ne_zero (NeZero.ne n))⟩

/-- `DDA::GetPrevious()`: the predecessor in the ring. -/
def ringPrev {n : ℕ} [NeZero n] (a : Fin n) : Fin n :=
  ⟨(a.val + (n - 1)) % n, Nat.mod_lt _ (Nat.pos_of_ne_zero (NeZero.ne n))⟩

/-- The number of `GetNext` steps from `a` to `b` around the ring. -/
def ringDist {n : ℕ} (a b : Fin n) : ℕ := (b.val + n - a.val) % n

/-- The list of ring positions starting at `a`, of length `m`
(`a, a.next, a.next.next, ...`). -/
def fwdList {n : ℕ} [NeZero n] (a : Fin n) : ℕ → List (Fin n)
  | 0 => []
  | m + 1 => a :: fwdList (ringNext a) m

/-- The ring positions from `a` (inclusive) to `b` (exclusive), in ring
order: what a `for (p = a; p != b; p = p->GetNext())` loop visits. -/
def ringList {n : ℕ} [NeZero n] (a b : Fin n) : List (Fin n) :=
  fwdList a (ringDist a b)

/-- The list of ring positions strictly before `a`, walking backwards:
`a.prev, a.prev.prev, ...`, of length `m`. -/
def backList {n : ℕ} [NeZero n] (a : Fin n) : ℕ → List (Fin n)
  | 0 => []
  | m + 1 => ringPrev a :: backList (ringPrev a) m

/-- `DDA::Release()` on ring slot `i`: modelled from the spec (the DDA
class is not under src/): the descriptor returns to the `empty` state. -/
def releaseDda {n : ℕ} (ddas : Fin n → DdaRec) (i : Fin n) : Fin n → DdaRec :=
  Function.update ddas i { ddas i with state := DdaState.empty }

/-- The release do-while of `Move::PausePrint` (lines 552-562): starting at
`i`, record the first file position into `fPos` while it is still
`noFilePosition`, release the descriptor, advance, and stop after the
step that reaches `stop`.  The do-while runs `ringDist i stop` times when
`i ≠ stop` (and `n` times when `i = stop`), so fuel `n` is always enough;
it returns the new descriptor array, the collected file position and the
released positions in release order. -/
def pauseReleaseLoop {n : ℕ} [NeZero n] :
    ℕ → (Fin n → DdaRec) → ℕ → Fin n → Fin n → (Fin n → DdaRec) × ℕ × List (Fin n)
  | 0, ddas, fPos, _, _ => (ddas, fPos, [])
  | fuel + 1, ddas, fPos, i, stop =>
    let fPos' := if fPos = noFilePosition then (ddas i).filePosition else fPos
    let ddas' := releaseDda ddas i
    let j := ringNext i
    if j = stop then (ddas', fPos', [i])
    else
      let r := pauseReleaseLoop fuel ddas' fPos' j stop
      (r.1, r.2.1, i :: r.2.2)

/-- The outcome of `Move::PausePrint`: the returned file position, the
`positions` output (end coordinates and requested feed rate) when it was
written, the released ring slots in release order, and the state of the
ring afterwards. -/
structure PauseResult (n : ℕ) where
  fPos : ℕ
  positions : Option (Triple × ℚ)
  released : List (Fin n)
  finalState : MoveState n

/-- `Move::PausePrint`.  Returns `none` only on the path where the source
would dereference a null `dda` pointer (no current move but queued moves
were skipped): there the behaviour of the C++ is undefined.  On all other
paths it returns the file position of the skip point (or `noFilePosition`),
the `positions` output when moves were skipped (`none` when the source
leaves `positions` to `GetCurrentUserPosition`), the released descriptors
in order, and the final ring state. -/
def MoveState.PausePrint {n : ℕ} [NeZero n] (m : MoveState n) :
    Option (PauseResult n) :=
  let saved := m.addPointer
  let scan :=
    match m.currentDda with
    | some c =>
      if (m.ddas c).canPause then (some c, ringNext c)
      else
        match (ringList m.getPointer m.addPointer).find?
            (fun i => (m.ddas i).canPause) with
        | some d => (some d, ringNext d)
        | none => (none, m.addPointer)
    | none => (none, m.getPointer)
  let newAdd := scan.2
  if newAdd ≠ saved then
    match scan.1 with
    | none => none
    | some d =>
      let r := pauseReleaseLoop n m.ddas noFilePosition newAdd saved
      some { fPos := r.2.1
             positions := some ((m.ddas d).endCoordinates, (m.ddas d).requestedSpeed)
             released := r.2.2
             finalState := { m with ddas := r.1, addPointer := newAdd } }
  else
    some { fPos := noFilePosition
           positions := none
           released := []
           finalState := { m with addPointer := newAdd } }

/-- The file position collected by the pause release loop, as a fold. -/
def fPosFold {n : ℕ} (ddas : Fin n → DdaRec) (fPos : ℕ) (l : List (Fin n)) : ℕ :=
  l.foldl (fun acc i => if acc = noFilePosition then (ddas i).filePosition else acc) fPos

/-- Releasing every slot of a list in order, as a fold. -/
def releaseFold {n : ℕ} (ddas : Fin n → DdaRec) (l : List (Fin n)) : Fin n → DdaRec :=
  l.foldl releaseDda ddas

/-- The first file position of a list that is not the sentinel, or the
sentinel when there is none. -/
def firstFilePos (l : List ℕ) : ℕ :=
  match l.filter (fun f => f ≠ noFilePosition) with
  | [] => noFilePosition
  | f :: _ => f

/-- A single concrete descriptor for the ring examples. -/
def mkDda (st : DdaState) (cp : Bool) (fp : ℕ) (t : ℚ) : DdaRec :=
  { state := st, canPause := cp, filePosition := fp,
    endCoordinates := ⟨1, 2, 3⟩, requestedSpeed := 50, calcTime := t }

/-- The concrete ring for the C4 witness: four slots, the current move at
slot 0 can pause, the two queued moves at slots 1 and 2 record file
positions 11 and 22, the add pointer is at slot 3. -/
def mC4w : MoveState 4 :=
  { ddas := fun i =>
      if i.val = 0 then mkDda DdaState.executing true 5 1
      else if i.val = 1 then mkDda DdaState.frozen false 11 1
      else if i.val = 2 then mkDda DdaState.provisional false 22 1
      else mkDda DdaState.empty false noFilePosition 1
    addPointer := 3, getPointer := 0, currentDda := some 0,
    addNoMoreMoves := false }

/-- The concrete ring refuting the literal reading of claim C4: as `mC4w`
but the first skipped move (slot 1) has no recorded file position
(`noFilePosition`), while the second (slot 2) records 100. -/
def mC4x : MoveState 4 :=
  { ddas := fun i =>
      if i.val = 0 then mkDda DdaState.executing true 5 1
      else if i.val = 1 then mkDda DdaState.frozen false noFilePosition 1
      else if i.val = 2 then mkDda DdaState.provisional false 100 1
      else mkDda DdaState.empty false noFilePosition 1
    addPointer := 3, getPointer := 0, currentDda := some 0,
    addNoMoreMoves := false }

/-- The look-ahead walk of `Move::Spin` (lines 347-358): starting at the
add pointer, walk backwards while the descriptors are provisional, summing
into `unPreparedTime` the time of every provisional move except the last
one walked, which is held in `prevMoveTime`.  The C loop is unbounded but
stops at the first non-provisional descriptor; it is run with fuel `n`
(one full lap), which is enough whenever the descriptor at the add pointer
is not provisional. -/
def spinWalk {n : ℕ} [NeZero n] :
    ℕ → (Fin n → DdaRec) → Fin n → ℚ → ℚ → ℚ × ℚ
  | 0, _, _, u, p => (u, p)
  | fuel + 1, ddas, dda, u, p =>
    let d := ringPrev dda
    if (ddas d).state = DdaState.provisional then
      spinWalk fuel ddas d (u + p) ((ddas d).calcTime)
    else (u, p)

/-- The admission test of `Move::Spin`: a new move is polled from GCodes
only when `addNoMoreMoves` is clear, the descriptor at the add pointer is
`empty`, and the walked times satisfy
`unPreparedTime < 0.5 || unPreparedTime + prevMoveTime < 2.0`. -/
def MoveState.spinAcceptsMove {n : ℕ} [NeZero n] (m : MoveState n) : Bool :=
  !m.addNoMoreMoves
    && decide ((m.ddas m.addPointer).state = DdaState.empty)
    && (let r := spinWalk n m.ddas m.addPointer 0 0
        decide (r.1 < 1 / 2 ∨ r.1 + r.2 < 2))

/-- The maximal run of provisional descriptors walked backwards from the
add pointer (newest first). -/
def provisionalRun {n : ℕ} [NeZero n] (m : MoveState n) : List (Fin n) :=
  (backList m.addPointer n).takeWhile
    (fun i => decide ((m.ddas i).state = DdaState.provisional))

/-- Total `CalcTime` of a list of ring slots. -/
def sumTimes {n : ℕ} (m : MoveState n) (l : List (Fin n)) : ℚ :=
  (l.map (fun i => (m.ddas i).calcTime)).sum

/-- The accumulator recurrence of the spin walk, over an explicit list. -/
def walkAccum {n : ℕ} (ddas : Fin n → DdaRec) : List (Fin n) → ℚ → ℚ → ℚ × ℚ
  | [], u, p => (u, p)
  | d :: ds, u, p => walkAccum ddas ds (u + p) ((ddas d).calcTime)

/-- The concrete ring for the C5 witness: the add pointer at the free slot
3, two provisional moves of 0.25 s and 0.3 s behind it, an executing move
before those. -/
def mC5w : MoveState 4 :=
  { ddas := fun i =>
      if i.val = 0 then mkDda DdaState.executing true 5 1
      else if i.val = 1 then mkDda DdaState.provisional false 11 (3 / 10)
      else if i.val = 2 then mkDda DdaState.provisional false 22 (1 / 4)
      else mkDda DdaState.empty false noFilePosition 1
    addPointer := 3, getPointer := 0, currentDda := some 0,
    addNoMoreMoves := false }

/-- The tagged expression values of ExpressionParser.cpp, restricted to the
fragment the spec's expression laws exercise: `Int32` (modelled as ℤ; no
claim exercises 32-bit overflow), `Float` (exact rational with the stored
display-precision hint `param`), `Bool`, the two string flavours merged
into one (they compare by content), and `None` (null). -/
inductive EVal where
  | int (i : ℤ)
  | float (f : ℚ) (param : ℕ)
  | bool (b : Bool)
  | str (s : String)
  | null
  deriving DecidableEq

/-- Modelled from the spec: the pieces of GCodeBuffer state the named
constants `iterations`, `result` and `line` read (the GCodeBuffer class is
not under src/). -/
structure ParserContext where
  iterations : Option ℤ
  lastResult : ℤ
  lineNumber : ℤ

/-- Modelled from the spec: `MaxFloatDigitsDisplayedAfterPoint` from the
missing configuration header (7 in the era sources). -/
def MaxFloatDigitsDisplayedAfterPoint : ℕ := 7

/-- `ExpressionParser::SkipWhiteSpace`. -/
def skipWhiteSpace : List Char → List Char
  | ' ' :: rest => skipWhiteSpace rest
  | '\t' :: rest => skipWhiteSpace rest
  | s => s

/-- `ExpressionParser::CurrentCharacter`: the next character, or NUL at the
end of the input. -/
def curChar : List Char → Char
  | [] => Char.ofNat 0
  | c :: _ => c

/-- `ExpressionParser::ConvertToBool`: non-Boolean operands raise an error
only when `evaluate` is set; otherwise the value becomes `false`. -/
def ConvertToBool (val : EVal) (evaluate : Bool) : Except String EVal :=
  match val with
  | .bool b => .ok (.bool b)
  | _ => if evaluate then .error "expected Boolean operand" else .ok (.bool false)

/-- `ExpressionParser::ConvertToFloat` on the modelled fragment. -/
def ConvertToFloat (val : EVal) (evaluate : Bool) : Except String EVal :=
  match val with
  | .int i => .ok (.float i 1)
  | .float f p => .ok (.float f p)
  | _ => if evaluate then .error "expected numeric operand" else .ok (.float 0 1)

/-- `ExpressionParser::BalanceNumericTypes` on the modelled fragment. -/
def BalanceNumericTypes (v1 v2 : EVal) (evaluate : Bool) :
    Except String (EVal × EVal) :=
  match v1, v2 with
  | .float f p, w => do
    let w' ← ConvertToFloat w evaluate
    .ok (.float f p, w')
  | v, .float f p => do
    let v' ← ConvertToFloat v evaluate
    .ok (v', .float f p)
  | .int a, .int b => .ok (.int a, .int b)
  | _, _ =>
    if evaluate then .error "expected numeric operands"
    else .ok (.int 0, .int 0)

/-- The type tags of the fragment, for `BalanceTypes`. -/
def evalTag : EVal → ℕ
  | .int _ => 0
  | .float _ _ => 1
  | .bool _ => 2
  | .str _ => 3
  | .null => 4

/-- `ExpressionParser::BalanceTypes` (comparison balancing) on the modelled
fragment: equal type codes (both string flavours count as equal) need
nothing; otherwise promote the other operand to float when one is float;
otherwise the operands cannot be balanced. -/
def BalanceTypes (v1 v2 : EVal) (evaluate : Bool) :
    Except String (EVal × EVal) :=
  if evalTag v1 = evalTag v2 then .ok (v1, v2)
  else
    match v1, v2 with
    | .float f p, w => do
      let w' ← ConvertToFloat w evaluate
      .ok (.float f p, w')
    | v, .float f p => do
      let v' ← ConvertToFloat v evaluate
      .ok (v', .float f p)
    | _, _ =>
      if evaluate then .error "cannot convert operands to same type"
      else .ok (.int 0, .int 0)

/-- `ExpressionValue::AppendAsString` on the fragment, used by the `^`
concatenation operator.  The firmware's fixed-point float formatting is
abstracted by `toString` of the exact rational. -/
def evalToString : EVal → String
  | .int i => toString i
  | .float f _ => toString f
  | .bool b => if b then "true" else "false"
  | .str s => s
  | .null => "null"

/-- The decimal-digit run of `ParseNumber` (the external NumericConverter
restricted to unsigned decimal integer literals, the only numeric literals
the claims exercise). -/
def takeDigits : List Char → ℕ → ℕ × List Char
  | c :: rest, acc =>
    if c.isDigit then takeDigits rest (acc * 10 + (c.toNat - 48))
    else (acc, c :: rest)
  | [], acc => (acc, [])

/-- `ExpressionParser::ParseNumber` on the fragment. -/
def parseNumber (s : List Char) : EVal × List Char :=
  let r := takeDigits s 0
  (.int r.1, r.2)

/-- The identifier characters accepted by `ParseIdentifierExpression`
(letters, digits, underscore and the dotted-path separator; the `[...]`
index expressions of the source are outside the modelled fragment). -/
def isIdentChar (c : Char) : Bool :=
  c.isAlpha || c.isDigit || c = '_' || c = '.'

/-- The identifier run of `ParseIdentifierExpression`. -/
def takeIdent : List Char → String → String × List Char
  | c :: rest, acc =>
    if isIdentChar c then takeIdent rest (acc.push c)
    else (acc, c :: rest)
  | [], acc => (acc, [])

/-- `ExpressionParser::ParseQuotedString` (the opening quote has already
been consumed): doubled quotes stand for one quote, a single quote
lower-cases a following letter or doubles for itself, control characters
(and the NUL at the end of the input) raise an error.  The string-length
cap of the fixed buffer is not modelled. -/
def parseQuotedString : List Char → String → Except String (EVal × List Char)
  | [], _ => .error "control character in string"
  | c :: rest, acc =>
    if c.toNat < 32 then .error "control character in string"
    else if c = '"' then
      match rest with
      | '"' :: rest2 => parseQuotedString rest2 (acc.push '"')
      | _ => .ok (.str acc, rest)
    else if c = '\'' then
      match rest with
      | d :: rest2 =>
        if d.isAlpha then parseQuotedString rest2 (acc.push d.toLower)
        else if d = '\'' then parseQuotedString rest2 (acc.push '\'')
        else parseQuotedString (d :: rest2) (acc.push '\'')
      | [] => parseQuotedString [] (acc.push '\'')
    else parseQuotedString rest (acc.push c)
termination_by s _ => s.length
decreasing_by
all_goals simp_wf
all_goals omega

/-- The Boolean payload of a value `ConvertToBool` has produced. -/
def asBool : EVal → Bool
  | .bool b => b
  | _ => false

/-- `ExpressionParser::ParseIdentifierExpression` on the modelled fragment:
the identifier run, the named constants (`true`, `false`, `null`, `pi`,
`iterations`, `result`, `line`), the unknown-function error for a name
followed by `(` (the function table and the `[...]` index expressions are
outside the fragment), then — only when `evaluate` is set — the lookup in
the object model / variable store, which is abstracted by `env`; with
`evaluate` clear the result is null and no lookup happens.  `wantLength`
is `applyLengthOperator`: the lookup returns the length of a string value.
Error messages are simplified to avoid punctuation. -/
def parseIdentifierExpression (env : String → Option EVal) (ctx : ParserContext)
    (s : List Char) (evaluate wantLength : Bool) : Except String (EVal × List Char) :=
  if (curChar s).isAlpha then
    let r := takeIdent s ""
    let id := r.1
    let rest := r.2
    if id = "true" then .ok (.bool true, rest)
    else if id = "false" then .ok (.bool false, rest)
    else if id = "null" then .ok (.null, rest)
    else if id = "pi" then
      .ok (.float (3141592653589793 / 1000000000000000) MaxFloatDigitsDisplayedAfterPoint, rest)
    else if id = "iterations" then
      match ctx.iterations with
      | some v => .ok (.int v, rest)
      | none => .error "iterations used when not inside a loop"
    else if id = "result" then .ok (.int ctx.lastResult, rest)
    else if id = "line" then .ok (.int ctx.lineNumber, rest)
    else
      let rest2 := skipWhiteSpace rest
      if curChar rest2 = '(' then .error "unknown function"
      else if evaluate then
        match env id with
        | some v =>
          if wantLength then
            match v with
            | .str t => .ok (.int t.length, rest2)
            | _ => .error "unknown value"
          else .ok (v, rest2)
        | none => .error "unknown value"
      else .ok (.null, rest2)
  else .error "expected an identifier"

/-- The binary-operator table of `ParseInternal`
(`"?^&|!=<>+-*/"` with priorities `1,2,3,3,4,4,4,4,5,5,6,6`). -/
def opPriority (c : Char) : Option ℕ :=
  if c = '?' then some 1
  else if c = '^' then some 2
  else if c = '&' then some 3
  else if c = '|' then some 3
  else if c = '!' then some 4
  else if c = '=' then some 4
  else if c = '<' then some 4
  else if c = '>' then some 4
  else if c = '+' then some 5
  else if c = '-' then some 5
  else if c = '*' then some 6
  else if c = '/' then some 6
  else none

/-- `UnaryPriority` of `ParseInternal` (higher than every binary priority). -/
def UnaryPriority : ℕ := 10

/-- The always-both-operands binary operators of `ParseInternal`
(the `default:` arm of its operator switch) on the modelled fragment:
`+ - *` via `BalanceNumericTypes`, `/` via `ConvertToFloat` (rational
division stands in for float division; no claim divides by zero),
`> < =` via `BalanceTypes` with the Boolean orderings and the
null-comparison special cases of the source, `^` string concatenation;
`invert` is the flag set while decoding `!=`, `>=`, `<=`. -/
def applyBinaryOp (opChar : Char) (invert : Bool) (v1 v2 : EVal)
    (evaluate : Bool) : Except String EVal :=
  if opChar = '+' then do
    let p ← BalanceNumericTypes v1 v2 evaluate
    match p with
    | (.float a pa, .float b pb) => pure (.float (a + b) (max pa pb))
    | (.int a, .int b) => pure (.int (a + b))
    | _ => pure (.int 0)
  else if opChar = '-' then do
    let p ← BalanceNumericTypes v1 v2 evaluate
    match p with
    | (.float a pa, .float b pb) => pure (.float (a - b) (max pa pb))
    | (.int a, .int b) => pure (.int (a - b))
    | _ => pure (.int 0)
  else if opChar = '*' then do
    let p ← BalanceNumericTypes v1 v2 evaluate
    match p with
    | (.float a pa, .float b pb) => pure (.float (a * b) (max pa pb))
    | (.int a, .int b) => pure (.int (a * b))
    | _ => pure (.int 0)
  else if opChar = '/' then do
    let a ← ConvertToFloat v1 evaluate
    let b ← ConvertToFloat v2 evaluate
    match a, b with
    | .float x _, .float y _ => pure (.float (x / y) MaxFloatDigitsDisplayedAfterPoint)
    | _, _ => pure (.float 0 MaxFloatDigitsDisplayedAfterPoint)
  else if opChar = '>' then do
    let p ← BalanceTypes v1 v2 evaluate
    let b ←
      match p with
      | (.int a, .int b) => pure (decide (b < a))
      | (.float a _, .float b _) => pure (decide (b < a))
      | (.bool a, .bool b) => pure (a && !b)
      | _ =>
        if evaluate then
          Except.error "expected numeric or Boolean operands to comparison operator"
        else pure false
    pure (.bool (xor b invert))
  else if opChar = '<' then do
    let p ← BalanceTypes v1 v2 evaluate
    let b ←
      match p with
      | (.int a, .int b) => pure (decide (a < b))
      | (.float a _, .float b _) => pure (decide (a < b))
      | (.bool a, .bool b) => pure (!a && b)
      | _ =>
        if evaluate then
          Except.error "expected numeric or Boolean operands to comparison operator"
        else pure false
    pure (.bool (xor b invert))
  else if opChar = '=' then do
    let b ←
      match v1, v2 with
      | .null, w => pure (decide (w = EVal.null))
      | _, .null => pure false
      | _, _ => do
        let p ← BalanceTypes v1 v2 evaluate
        match p with
        | (.int a, .int b) => pure (decide (a = b))
        | (.float a _, .float b _) => pure (decide (a = b))
        | (.bool a, .bool b) => pure (a == b)
        | (.str a, .str b) => pure (a == b)
        | _ =>
          if evaluate then
            Except.error "unexpected operand type to equality operator"
          else pure false
    pure (.bool (xor b invert))
  else if opChar = '^' then
    pure (.str (evalToString v1 ++ evalToString v2))
  else .error "unknown operator"

mutual

/-- `ExpressionParser::ParseInternal` on the modelled fragment: the unary
operators and bracketed and atomic expressions, followed by the binary
operator loop (`parseBinOps`).  The state is the remaining input; errors
are thrown exceptions.  `fuel` models the `CheckStack` recursion budget
(every recursive call decrements it; its exhaustion message corresponds to
the Expression-nesting-too-deep exception and is never reached by the
inputs considered here).  The curly brackets are written via their codes
(123, 125) only to keep them out of the literal.  `ParseExpectKet` is
inlined in the two bracket cases with a simplified message. -/
def parseInternal (env : String → Option EVal) (ctx : ParserContext) :
    ℕ → List Char → Bool → ℕ → Except String (EVal × List Char)
  | 0, _, _, _ => .error "expression nesting too deep"
  | Nat.succ fuel, s0, evaluate, priority =>
    let s := skipWhiteSpace s0
    let c := curChar s
    do
    let first ←
      if c = '"' then parseQuotedString s.tail ""
      else if c = '-' then do
        let r ← parseInternal env ctx fuel s.tail evaluate UnaryPriority
        match r.1 with
        | .int i => pure (EVal.int (-i), r.2)
        | .float f p => pure (EVal.float (-f) p, r.2)
        | _ => Except.error "expected numeric value after unary minus"
      else if c = '+' then do
        let r ← parseInternal env ctx fuel s.tail evaluate UnaryPriority
        match r.1 with
        | .int i => pure (EVal.int i, r.2)
        | .float f p => pure (EVal.float f p, r.2)
        | _ => Except.error "expected numeric or enumeration value after unary plus"
      else if c = '#' then
        let s2 := skipWhiteSpace s.tail
        if (curChar s2).isAlpha then
          parseIdentifierExpression env ctx s2 evaluate true
        else do
          let r ← parseInternal env ctx fuel s2 evaluate UnaryPriority
          match r.1 with
          | .str t => pure (EVal.int t.length, r.2)
          | _ => Except.error "expected object model value or string after length operator"
      else if c = Char.ofNat 123 then do
        let r ← parseInternal env ctx fuel s.tail evaluate 0
        if curChar r.2 = Char.ofNat 125 then pure (r.1, r.2.tail)
        else Except.error "expected closing bracket"
      else if c = '(' then do
        let r ← parseInternal env ctx fuel s.tail evaluate 0
        if curChar r.2 = ')' then pure (r.1, r.2.tail)
        else Except.error "expected closing bracket"
      else if c = '!' then do
        let r ← parseInternal env ctx fuel s.tail evaluate UnaryPriority
        let vb ← ConvertToBool r.1 evaluate
        pure (EVal.bool (!(asBool vb)), r.2)
      else if c.isDigit then pure (parseNumber s)
      else if c.isAlpha then parseIdentifierExpression env ctx s evaluate false
      else Except.error "expected an expression"
    parseBinOps env ctx fuel first.1 first.2 evaluate priority

/-- The do-while binary-operator loop at the end of `ParseInternal`:
stop on end of input, a non-operator character or an operator whose
priority does not exceed `priority`; decode the two-character forms
(`!=`, `>=`, `<=`, and the doubled `==`, `&&`, `||`); then the
short-circuiting `&`, `|` and `?:` — whose second (and third) operand is
parsed with `evaluate` masked by the Boolean value of the left operand
exactly as in the source — or an `applyBinaryOp` operator, and loop
(`?:` returns directly, as the source does). -/
def parseBinOps (env : String → Option EVal) (ctx : ParserContext) :
    ℕ → EVal → List Char → Bool → ℕ → Except String (EVal × List Char)
  | 0, _, _, _, _ => .error "expression nesting too deep"
  | Nat.succ fuel, val, s0, evaluate, priority =>
    let s := skipWhiteSpace s0
    let opChar := curChar s
    match opPriority opChar with
    | none => .ok (val, s)
    | some opPrio =>
      if opPrio ≤ priority then .ok (val, s)
      else
        let s1 := s.tail
        do
        let t ←
          if opChar = '!' then
            if curChar s1 = '=' then Except.ok ('=', true, s1.tail)
            else Except.error "expected equals sign"
          else if opChar = '>' && curChar s1 = '=' then Except.ok ('<', true, s1.tail)
          else if opChar = '<' && curChar s1 = '=' then Except.ok ('>', true, s1.tail)
          else if (opChar = '=' || opChar = '&' || opChar = '|') && curChar s1 = opChar then
            Except.ok (opChar, false, s1.tail)
          else Except.ok (opChar, false, s1)
        let op := t.1
        let invert := t.2.1
        let s2 := t.2.2
        if op = '&' then do
          let vb ← ConvertToBool val evaluate
          let b := asBool vb
          let r ← parseInternal env ctx fuel s2 (evaluate && b) opPrio
          let newVal ←
            if b then do
              let v2b ← ConvertToBool r.1 evaluate
              pure (EVal.bool (asBool v2b))
            else pure vb
          parseBinOps env ctx fuel newVal r.2 evaluate priority
        else if op = '|' then do
          let vb ← ConvertToBool val evaluate
          let b := asBool vb
          let r ← parseInternal env ctx fuel s2 (evaluate && !b) opPrio
          let newVal ←
            if !b then do
              let v2b ← ConvertToBool r.1 evaluate
              pure (EVal.bool (asBool v2b))
            else pure vb
          parseBinOps env ctx fuel newVal r.2 evaluate priority
        else if op = '?' then do
          let vb ← ConvertToBool val evaluate
          let b := asBool vb
          let r2 ← parseInternal env ctx fuel s2 (evaluate && b) opPrio
          if curChar r2.2 = ':' then do
            let r3 ← parseInternal env ctx fuel r2.2.tail (evaluate && !b) (opPrio - 1)
            Except.ok (if b then r2.1 else r3.1, r3.2)
          else Except.error "expected colon"
        else do
          let r ← parseInternal env ctx fuel s2 evaluate opPrio
          let newVal ← applyBinaryOp op invert val r.1 evaluate
          parseBinOps env ctx fuel newVal r.2 evaluate priority

end

/-- `ExpressionParser::Parse`: parse a whole expression string starting at
priority 0, with a stack budget amply sufficient for the input. -/
def ParseExpression (env : String → Option EVal) (ctx : ParserContext)
    (input : String) (evaluate : Bool) : Except String EVal :=
  (parseInternal env ctx (2 * input.length + 8) input.data evaluate 0).map
    (fun r => r.1)

/-- A small object-model environment for the expression-parser facts:
`b` is the integer 1, `c` is the integer 2, everything else is undefined. -/
def envC7 : String → Option EVal := fun id =>
  if id = "b" then some (.int 1) else if id = "c" then some (.int 2) else none

/-- A parser context for the expression-parser facts. -/
def ctxC7 : ParserContext := ⟨some 5, 0, 12⟩

/-- On perfect squares of non-negative rationals, `ratSqrt` is exact. -/
theorem ratSqrt_sq (t : ℚ) (ht : 0 ≤ t) : ratSqrt (t ^ 2) = t := by
  have hnum : (t ^ 2).num = t.num * t.num := by
    rw [pow_two]; exact Rat.mul_self_num t
  have hden : (t ^ 2).den = t.den * t.den := by
    rw [pow_two]; exact Rat.mul_self_den t
  have hnn : 0 ≤ t.num := Rat.num_nonneg.mpr ht
  unfold ratSqrt
  rw [hnum, hden, Int.sqrt_eq, Nat.sqrt_eq, Int.natAbs_of_nonneg hnn]
  exact_mod_cast Rat.num_div_den t

/-- Claim C3: after `NormaliseEndstopAdjustments` the mean of the endstop
adjustments is zero (exactly, hence within 1e-6); each adjustment has been
decreased by the old mean; `homedHeight` and `homedCarriageHeight` have
each been increased by the old mean; and every per-tower homed carriage
height `homedCarriageHeight + endstopAdjustments[i]` is unchanged. -/
theorem normaliseEndstopAdjustments_spec (p : DeltaParameters) :
    ((p.NormaliseEndstopAdjustments).endstop0 + (p.NormaliseEndstopAdjustments).endstop1
        + (p.NormaliseEndstopAdjustments).endstop2) / 3 = 0 ∧
    (p.NormaliseEndstopAdjustments).endstop0
        = p.endstop0 - (p.endstop0 + p.endstop1 + p.endstop2) / 3 ∧
    (p.NormaliseEndstopAdjustments).endstop1
        = p.endstop1 - (p.endstop0 + p.endstop1 + p.endstop2) / 3 ∧
    (p.NormaliseEndstopAdjustments).endstop2
        = p.endstop2 - (p.endstop0 + p.endstop1 + p.endstop2) / 3 ∧
    (p.NormaliseEndstopAdjustments).homedHeight
        = p.homedHeight + (p.endstop0 + p.endstop1 + p.endstop2) / 3 ∧
    (p.NormaliseEndstopAdjustments).homedCarriageHeight
        = p.homedCarriageHeight + (p.endstop0 + p.endstop1 + p.endstop2) / 3 ∧
    (∀ axis : Fin 3,
      (p.NormaliseEndstopAdjustments).GetHomedCarriageHeight axis
        = p.GetHomedCarriageHeight axis) := by
  refine ⟨by simp only [DeltaParameters.NormaliseEndstopAdjustments]; ring,
    rfl, rfl, rfl, rfl, rfl, ?_⟩
  intro axis
  fin_cases axis <;>
    simp only [DeltaParameters.GetHomedCarriageHeight, DeltaParameters.endstop,
      DeltaParameters.NormaliseEndstopAdjustments] <;>
    ring

/-- Claim C1 (failing): first, for every square-root model, every parameter
set and every value of the C-tower endstop adjustment, the
`homedCarriageHeight` stored by `Recalc` is independent of that adjustment
(the source passes `endstopAdjustments[X_AXIS]` again as the third argument
of `InverseTransform`); second, concretely at `pC1bug` with the faithful
oracle `sqC1` (exact on the perfect-square discriminant of the code path,
integer-floor on the spec path), the stored value is 120 while the value
the claim requires, `homedHeight + diagonal - InverseTransform(diagonal +
endstop_A, diagonal + endstop_B, diagonal + endstop_C).z`, is
113326661/956448 ≈ 118.49. -/
theorem recalc_homedCarriageHeight_ignores_endstopC :
    (∀ (sq : ℚ → ℚ) (p : DeltaParameters) (v : ℚ),
      (DeltaParameters.Recalc sq { p with endstop2 := v }).homedCarriageHeight
        = (DeltaParameters.Recalc sq p).homedCarriageHeight) ∧
    sqC1 ((18895680 : ℚ) ^ 2) = 18895680 ∧
    ((18959069 : ℚ) ^ 2 ≤ 359446319077824 ∧
      (359446319077824 : ℚ) < (18959069 + 1) ^ 2) ∧
    (pC1bug.Recalc sqC1).homedCarriageHeight = 120 ∧
    (pC1bug.Recalc sqC1).homedHeight + (pC1bug.Recalc sqC1).diagonal
        - ((pC1bug.Recalc sqC1).InverseTransform sqC1
            ((pC1bug.Recalc sqC1).diagonal + (pC1bug.Recalc sqC1).endstop0)
            ((pC1bug.Recalc sqC1).diagonal + (pC1bug.Recalc sqC1).endstop1)
            ((pC1bug.Recalc sqC1).diagonal + (pC1bug.Recalc sqC1).endstop2)).z
      = 113326661 / 956448 ∧
    (120 : ℚ) ≠ 113326661 / 956448 := by
  refine ⟨?_, by norm_num [sqC1], by norm_num, ?_, ?_, by norm_num⟩
  · intro sq p v
    unfold DeltaParameters.Recalc
    split <;> rfl
  · norm_num [pC1bug, DeltaParameters.Recalc, DeltaParameters.InverseTransform,
      itZ, itA, itMinusHalfB, itC, itS, itP, itR, itU, itFa, itFb, itFc, sqC1]
  · norm_num [pC1bug, DeltaParameters.Recalc, DeltaParameters.InverseTransform,
      itZ, itA, itMinusHalfB, itC, itS, itP, itR, itU, itFa, itFb, itFc, sqC1]

/-- Claim C2: for a delta parameter set whose cached coefficients are
consistent (as `Recalc` establishes them) and non-degenerate (`Q ≠ 0`),
and a Cartesian point reachable by all three towers (each forward-transform
radicand is an exact square of the square-root oracle) with the executing
carriage configuration above the point (`A·z ≤ minusHalfB`, the
negative-root choice of the source), applying `Transform` for towers
A, B, C and then `InverseTransform` to the three carriage heights returns
the point to within 1e-3 in each coordinate (in the exact rational model it
returns it exactly). -/
theorem delta_transform_roundtrip
    (sq : ℚ → ℚ) (p : DeltaParameters) (pos : Triple)
    (hcons : RecalcConsistent p) (hQ : p.Q ≠ 0)
    (hsq : ∀ t : ℚ, 0 ≤ t → sq (t ^ 2) = t)
    (hsa : sq (p.D2 - (pos.x - p.towerX0) ^ 2 - (pos.y - p.towerY0) ^ 2) ^ 2
            = p.D2 - (pos.x - p.towerX0) ^ 2 - (pos.y - p.towerY0) ^ 2)
    (hsb : sq (p.D2 - (pos.x - p.towerX1) ^ 2 - (pos.y - p.towerY1) ^ 2) ^ 2
            = p.D2 - (pos.x - p.towerX1) ^ 2 - (pos.y - p.towerY1) ^ 2)
    (hsc : sq (p.D2 - (pos.x - p.towerX2) ^ 2 - (pos.y - p.towerY2) ^ 2) ^ 2
            = p.D2 - (pos.x - p.towerX2) ^ 2 - (pos.y - p.towerY2) ^ 2)
    (hsign : itA p (p.Transform sq pos 0) (p.Transform sq pos 1) (p.Transform sq pos 2) * pos.z
              ≤ itMinusHalfB p (p.Transform sq pos 0) (p.Transform sq pos 1) (p.Transform sq pos 2)) :
    |(p.InverseTransform sq (p.Transform sq pos 0) (p.Transform sq pos 1)
        (p.Transform sq pos 2)).x - pos.x| ≤ 1 / 1000 ∧
    |(p.InverseTransform sq (p.Transform sq pos 0) (p.Transform sq pos 1)
        (p.Transform sq pos 2)).y - pos.y| ≤ 1 / 1000 ∧
    |(p.InverseTransform sq (p.Transform sq pos 0) (p.Transform sq pos 1)
        (p.Transform sq pos 2)).z - pos.z| ≤ 1 / 1000 := by
  obtain ⟨hXbc, hXca, hXab, hYbc, hYca, hYab, hFa, hFb, hFc, hQdef, hQ2⟩ := hcons
  obtain ⟨x, y, z⟩ := pos
  set sa := sq (p.D2 - (x - p.towerX0) ^ 2 - (y - p.towerY0) ^ 2) with hsadef
  set sb := sq (p.D2 - (x - p.towerX1) ^ 2 - (y - p.towerY1) ^ 2) with hsbdef
  set sc := sq (p.D2 - (x - p.towerX2) ^ 2 - (y - p.towerY2) ^ 2) with hscdef
  have hHa : p.Transform sq ⟨x, y, z⟩ 0 = z + sa := rfl
  have hHb : p.Transform sq ⟨x, y, z⟩ 1 = z + sb := rfl
  have hHc : p.Transform sq ⟨x, y, z⟩ 2 = z + sc := rfl
  rw [hHa, hHb, hHc] at hsign ⊢
  -- Q in tower terms
  have hQ' : p.Q = 2 * ((p.towerX0 - p.towerX2) * (p.towerY1 - p.towerY0)
      - (p.towerX1 - p.towerX0) * (p.towerY0 - p.towerY2)) := by
    rw [hQdef, hXca, hXab, hYab, hYca]
  -- the two linear identities
  have h1 : itS p (z + sa) (z + sb) (z + sc) = itU p (z + sa) (z + sb) (z + sc) * z - p.Q * x := by
    simp only [itS, itU, itFa, itFb, itFc, hYbc, hYca, hYab, hFa, hFb, hFc, hQ']
    linear_combination (p.towerY2 - p.towerY1) * hsa + (p.towerY0 - p.towerY2) * hsb
      + (p.towerY1 - p.towerY0) * hsc
  have h2 : itP p (z + sa) (z + sb) (z + sc) = itR p (z + sa) (z + sb) (z + sc) * z + p.Q * y := by
    simp only [itP, itR, itFa, itFb, itFc, hXbc, hXca, hXab, hFa, hFb, hFc, hQ']
    linear_combination (p.towerX2 - p.towerX1) * hsa + (p.towerX0 - p.towerX2) * hsb
      + (p.towerX1 - p.towerX0) * hsc
  -- the quadratic identity A z^2 - 2 mB z + C = 0
  have h4 : itA p (z + sa) (z + sb) (z + sc) * z ^ 2
      - 2 * itMinusHalfB p (z + sa) (z + sb) (z + sc) * z
      + itC p (z + sa) (z + sb) (z + sc) = 0 := by
    simp only [itA, itMinusHalfB, itC, hQ2]
    linear_combination
      (itS p (z + sa) (z + sb) (z + sc) + (itU p (z + sa) (z + sb) (z + sc) * z - p.Q * x)
        + 2 * p.towerX0 * p.Q - 2 * z * itU p (z + sa) (z + sb) (z + sc)) * h1
      + (itP p (z + sa) (z + sb) (z + sc) + (itR p (z + sa) (z + sb) (z + sc) * z + p.Q * y)
        - 2 * p.towerY0 * p.Q - 2 * z * itR p (z + sa) (z + sb) (z + sc)) * h2
      + p.Q ^ 2 * hsa
  -- discriminant is a perfect square
  have hdisc : itMinusHalfB p (z + sa) (z + sb) (z + sc) ^ 2
      - itA p (z + sa) (z + sb) (z + sc) * itC p (z + sa) (z + sb) (z + sc)
      = (itMinusHalfB p (z + sa) (z + sb) (z + sc) - itA p (z + sa) (z + sb) (z + sc) * z) ^ 2 := by
    linear_combination (-(itA p (z + sa) (z + sb) (z + sc))) * h4
  have hge : 0 ≤ itMinusHalfB p (z + sa) (z + sb) (z + sc)
      - itA p (z + sa) (z + sb) (z + sc) * z := sub_nonneg.mpr hsign
  have hApos : 0 < itA p (z + sa) (z + sb) (z + sc) := by
    have hq2 : 0 < p.Q ^ 2 := by
      have h := pow_pos (abs_pos.mpr hQ) 2
      rwa [sq_abs] at h
    have hu := sq_nonneg (itU p (z + sa) (z + sb) (z + sc))
    have hr := sq_nonneg (itR p (z + sa) (z + sb) (z + sc))
    simp only [itA, hQ2]
    linarith
  have hAne : itA p (z + sa) (z + sb) (z + sc) ≠ 0 := ne_of_gt hApos
  have hzq : itZ sq p (z + sa) (z + sb) (z + sc) = z := by
    rw [itZ, hdisc, hsq _ hge, div_eq_iff hAne]
    ring
  have hxq : (p.InverseTransform sq (z + sa) (z + sb) (z + sc)).x = x := by
    show (itU p (z + sa) (z + sb) (z + sc) * itZ sq p (z + sa) (z + sb) (z + sc)
      - itS p (z + sa) (z + sb) (z + sc)) / p.Q = x
    rw [hzq, h1, div_eq_iff hQ]
    ring
  have hyq : (p.InverseTransform sq (z + sa) (z + sb) (z + sc)).y = y := by
    show (itP p (z + sa) (z + sb) (z + sc)
      - itR p (z + sa) (z + sb) (z + sc) * itZ sq p (z + sa) (z + sb) (z + sc)) / p.Q = y
    rw [hzq, h2, div_eq_iff hQ]
    ring
  have hzq' : (p.InverseTransform sq (z + sa) (z + sb) (z + sc)).z = z := hzq
  rw [hxq, hyq, hzq']
  norm_num

/-- Witness for claim C2: at `pC2` and the point `(0, 0, 10)` with the exact
rational square root, all hypotheses of the round-trip theorem hold and the
round trip recovers the point to within 1e-3. -/
theorem delta_transform_roundtrip_witness :
    RecalcConsistent pC2 ∧ pC2.Q ≠ 0 ∧
    |(pC2.InverseTransform ratSqrt (pC2.Transform ratSqrt ⟨0, 0, 10⟩ 0)
        (pC2.Transform ratSqrt ⟨0, 0, 10⟩ 1) (pC2.Transform ratSqrt ⟨0, 0, 10⟩ 2)).x
      - (0 : ℚ)| ≤ 1 / 1000 ∧
    |(pC2.InverseTransform ratSqrt (pC2.Transform ratSqrt ⟨0, 0, 10⟩ 0)
        (pC2.Transform ratSqrt ⟨0, 0, 10⟩ 1) (pC2.Transform ratSqrt ⟨0, 0, 10⟩ 2)).y
      - (0 : ℚ)| ≤ 1 / 1000 ∧
    |(pC2.InverseTransform ratSqrt (pC2.Transform ratSqrt ⟨0, 0, 10⟩ 0)
        (pC2.Transform ratSqrt ⟨0, 0, 10⟩ 1) (pC2.Transform ratSqrt ⟨0, 0, 10⟩ 2)).z
      - (10 : ℚ)| ≤ 1 / 1000 := by
  have hcons : RecalcConsistent pC2 := by norm_num [RecalcConsistent, pC2]
  have hQne : pC2.Q ≠ 0 := by norm_num [pC2]
  have h400 : ratSqrt 400 = 20 := by
    rw [show (400 : ℚ) = 20 ^ 2 by norm_num]
    exact ratSqrt_sq 20 (by norm_num)
  have harg0 : pC2.D2 - ((⟨0, 0, 10⟩ : Triple).x - pC2.towerX0) ^ 2
      - ((⟨0, 0, 10⟩ : Triple).y - pC2.towerY0) ^ 2 = 400 := by norm_num [pC2]
  have harg1 : pC2.D2 - ((⟨0, 0, 10⟩ : Triple).x - pC2.towerX1) ^ 2
      - ((⟨0, 0, 10⟩ : Triple).y - pC2.towerY1) ^ 2 = 400 := by norm_num [pC2]
  have harg2 : pC2.D2 - ((⟨0, 0, 10⟩ : Triple).x - pC2.towerX2) ^ 2
      - ((⟨0, 0, 10⟩ : Triple).y - pC2.towerY2) ^ 2 = 400 := by norm_num [pC2]
  have hsa : ratSqrt (pC2.D2 - ((⟨0, 0, 10⟩ : Triple).x - pC2.towerX0) ^ 2
      - ((⟨0, 0, 10⟩ : Triple).y - pC2.towerY0) ^ 2) ^ 2
      = pC2.D2 - ((⟨0, 0, 10⟩ : Triple).x - pC2.towerX0) ^ 2
        - ((⟨0, 0, 10⟩ : Triple).y - pC2.towerY0) ^ 2 := by
    rw [harg0, h400]; norm_num
  have hsb : ratSqrt (pC2.D2 - ((⟨0, 0, 10⟩ : Triple).x - pC2.towerX1) ^ 2
      - ((⟨0, 0, 10⟩ : Triple).y - pC2.towerY1) ^ 2) ^ 2
      = pC2.D2 - ((⟨0, 0, 10⟩ : Triple).x - pC2.towerX1) ^ 2
        - ((⟨0, 0, 10⟩ : Triple).y - pC2.towerY1) ^ 2 := by
    rw [harg1, h400]; norm_num
  have hsc : ratSqrt (pC2.D2 - ((⟨0, 0, 10⟩ : Triple).x - pC2.towerX2) ^ 2
      - ((⟨0, 0, 10⟩ : Triple).y - pC2.towerY2) ^ 2) ^ 2
      = pC2.D2 - ((⟨0, 0, 10⟩ : Triple).x - pC2.towerX2) ^ 2
        - ((⟨0, 0, 10⟩ : Triple).y - pC2.towerY2) ^ 2 := by
    rw [harg2, h400]; norm_num
  have hHa : pC2.Transform ratSqrt ⟨0, 0, 10⟩ 0 = 30 := by
    show (⟨0, 0, 10⟩ : Triple).z + ratSqrt (pC2.D2
      - ((⟨0, 0, 10⟩ : Triple).x - pC2.towerX 0) ^ 2
      - ((⟨0, 0, 10⟩ : Triple).y - pC2.towerY 0) ^ 2) = 30
    rw [show pC2.towerX 0 = pC2.towerX0 from rfl, show pC2.towerY 0 = pC2.towerY0 from rfl,
      harg0, h400]
    norm_num
  have hHb : pC2.Transform ratSqrt ⟨0, 0, 10⟩ 1 = 30 := by
    show (⟨0, 0, 10⟩ : Triple).z + ratSqrt (pC2.D2
      - ((⟨0, 0, 10⟩ : Triple).x - pC2.towerX 1) ^ 2
      - ((⟨0, 0, 10⟩ : Triple).y - pC2.towerY 1) ^ 2) = 30
    rw [show pC2.towerX 1 = pC2.towerX1 from rfl, show pC2.towerY 1 = pC2.towerY1 from rfl,
      harg1, h400]
    norm_num
  have hHc : pC2.Transform ratSqrt ⟨0, 0, 10⟩ 2 = 30 := by
    show (⟨0, 0, 10⟩ : Triple).z + ratSqrt (pC2.D2
      - ((⟨0, 0, 10⟩ : Triple).x - pC2.towerX 2) ^ 2
      - ((⟨0, 0, 10⟩ : Triple).y - pC2.towerY 2) ^ 2) = 30
    rw [show pC2.towerX 2 = pC2.towerX2 from rfl, show pC2.towerY 2 = pC2.towerY2 from rfl,
      harg2, h400]
    norm_num
  have hsign : itA pC2 (pC2.Transform ratSqrt ⟨0, 0, 10⟩ 0) (pC2.Transform ratSqrt ⟨0, 0, 10⟩ 1)
      (pC2.Transform ratSqrt ⟨0, 0, 10⟩ 2) * (⟨0, 0, 10⟩ : Triple).z
      ≤ itMinusHalfB pC2 (pC2.Transform ratSqrt ⟨0, 0, 10⟩ 0)
        (pC2.Transform ratSqrt ⟨0, 0, 10⟩ 1) (pC2.Transform ratSqrt ⟨0, 0, 10⟩ 2) := by
    rw [hHa, hHb, hHc]
    norm_num [itA, itMinusHalfB, itS, itP, itR, itU, itFa, itFb, itFc, pC2]
  have h := delta_transform_roundtrip ratSqrt pC2 ⟨0, 0, 10⟩
    hcons hQne ratSqrt_sq hsa hsb hsc hsign
  exact ⟨hcons, hQne, h.1, h.2.1, h.2.2⟩

/-- Claim C6: with `coreXYMode = 1` and unit steps-per-unit,
`MotorTransform` maps machine position `(10, 5, 0)` to motor positions
`(15, -5, 0)` and `MachineToEndPoint` maps those motor positions back to
exactly `(10, 5, 0)`. -/
theorem coreXY_mapping_example :
    (∀ sq : ℚ → ℚ, mC6.MotorTransform sq ⟨10, 5, 0⟩ = (15, -5, 0)) ∧
    (∀ sq : ℚ → ℚ, mC6.MachineToEndPoint sq (15, -5, 0) = ⟨10, 5, 0⟩) := by
  constructor <;> intro sq <;>
    norm_num [mC6, MoveKin.MotorTransform, MoveKin.MachineToEndPoint,
      MoveKin.IsDeltaMode, MotorEndPointToMachine, roundf, Triple.mk.injEq]

/-- Claim C10: `BedTransform` and `InverseBedTransform` modify only the Z
component: for every input point and every probe-point configuration
(including the error case of an unsupported probe count) the X and Y
components are exactly unchanged, and in the `identityBedTransform` case
the whole point is unchanged. -/
theorem bedTransform_only_z (bs : BedState) (pt : Triple) :
    (bs.BedTransform pt).x = pt.x ∧ (bs.BedTransform pt).y = pt.y ∧
    (bs.InverseBedTransform pt).x = pt.x ∧ (bs.InverseBedTransform pt).y = pt.y ∧
    (bs.identityBedTransform = true →
      bs.BedTransform pt = pt ∧ bs.InverseBedTransform pt = pt) := by
  unfold BedState.BedTransform BedState.InverseBedTransform
  refine ⟨?_, ?_, ?_, ?_, fun h => by simp [h]⟩ <;> (dsimp only; split_ifs <;> rfl)

/-- Witness for claim C10: the identity-transform branch at a concrete
state and point. -/
theorem bedTransform_only_z_witness :
    (bsC10.BedTransform ⟨1, 2, 3⟩).x = 1 ∧ (bsC10.BedTransform ⟨1, 2, 3⟩).y = 2 ∧
    (bsC10.InverseBedTransform ⟨1, 2, 3⟩).x = 1 ∧
    (bsC10.InverseBedTransform ⟨1, 2, 3⟩).y = 2 ∧
    (bsC10.identityBedTransform = true →
      bsC10.BedTransform ⟨1, 2, 3⟩ = ⟨1, 2, 3⟩ ∧
      bsC10.InverseBedTransform ⟨1, 2, 3⟩ = ⟨1, 2, 3⟩) :=
  bedTransform_only_z bsC10 ⟨1, 2, 3⟩

/-- Claim C9: `ProcessBreakCommand` ends enclosing blocks one at a time
until the innermost enclosing `loop` block is found and converts it to
`plain`; when no enclosing loop exists (indent level 0 is reached first)
it raises the parse exception.  The block the `break` itself is in is
always popped first, so only blocks strictly enclosing it are searched. -/
theorem processBreakCommand_spec :
    (∀ (b0 : BlockType) (xs ys : List BlockType), BlockType.loop ∉ xs →
      processBreakCommand (b0 :: (xs ++ BlockType.loop :: ys))
        = .ok (BlockType.plain :: ys)) ∧
    (∀ (b0 : BlockType) (xs : List BlockType), BlockType.loop ∉ xs →
      processBreakCommand (b0 :: xs) = .error "break was not inside a loop") := by
  constructor
  · intro b0 xs ys
    induction xs generalizing b0 with
    | nil => intro _; simp [processBreakCommand]
    | cons x xs ih =>
      intro hx
      rw [List.mem_cons, not_or] at hx
      have hxl : ¬(x = BlockType.loop) := fun h => hx.1 h.symm
      simpa [processBreakCommand, hxl] using ih x hx.2
  · intro b0 xs
    induction xs generalizing b0 with
    | nil => intro _; rfl
    | cons x xs ih =>
      intro hx
      rw [List.mem_cons, not_or] at hx
      have hxl : ¬(x = BlockType.loop) := fun h => hx.1 h.symm
      simpa [processBreakCommand, hxl] using ih x hx.2

/-- Witness for claim C9: a `break` two plain blocks inside a loop exits
exactly that loop, and a `break` whose only enclosing loop candidate is
the block it is itself in (which is popped unchecked) raises the error. -/
theorem processBreakCommand_spec_witness :
    processBreakCommand
        [BlockType.plain, BlockType.plain, BlockType.loop, BlockType.ifTrue]
      = .ok [BlockType.plain, BlockType.ifTrue] ∧
    processBreakCommand [BlockType.loop, BlockType.plain]
      = .error "break was not inside a loop" := by
  constructor
  · exact processBreakCommand_spec.1 BlockType.plain [BlockType.plain]
      [BlockType.ifTrue] (by decide)
  · exact processBreakCommand_spec.2 BlockType.loop [BlockType.plain] (by decide)

/-- Claim C8: calling `DoDeltaCalibration` with a probe-point count below 4
or above `MaxDeltaCalibrationPoints` reports the error and returns with the
state (delta parameters, ring coordinates, live endpoints, everything)
unchanged. -/
theorem doDeltaCalibration_guard (sq : ℚ → ℚ)
    (gaussJordan : (ℕ → ℕ → ℚ) → ℕ → (ℕ → ℚ)) (numPoints : ℕ) (s : CalState)
    (h : numPoints < 4 ∨ MaxDeltaCalibrationPoints < numPoints) :
    Move.DoDeltaCalibration sq gaussJordan numPoints s = (s, true) := by
  unfold Move.DoDeltaCalibration
  exact if_pos h

/-- Witness for claim C8: three probe points are rejected with the state
unchanged. -/
theorem doDeltaCalibration_guard_witness :
    Move.DoDeltaCalibration (fun _ => 0) (fun _ _ _ => 0) 3 sC8 = (sC8, true) :=
  doDeltaCalibration_guard (fun _ => 0) (fun _ _ _ => 0) 3 sC8 (by norm_num)

theorem ringDist_self {n : ℕ} [NeZero n] (a : Fin n) : ringDist a a = 0 := by
  unfold ringDist
  have : a.val + n - a.val = n := by omega
  simp [this]

theorem ringDist_succ {n : ℕ} [NeZero n] (a b : Fin n) (h : a ≠ b) :
    ringDist a b = ringDist (ringNext a) b + 1 := by
  have hn : 0 < n := Nat.pos_of_ne_zero (NeZero.ne n)
  have ha := a.isLt
  have hb := b.isLt
  have hne : a.val ≠ b.val := fun hv => h (Fin.ext hv)
  unfold ringDist ringNext
  simp only
  rcases Nat.lt_or_ge (a.val + 1) n with hlt | hge
  · rw [Nat.mod_eq_of_lt hlt]
    rcases Nat.lt_or_ge a.val b.val with hab | hab
    · have e1 : b.val + n - a.val = n + (b.val - a.val) := by omega
      have e2 : b.val + n - (a.val + 1) = n + (b.val - a.val - 1) := by omega
      rw [e1, e2, Nat.add_mod_left, Nat.add_mod_left,
        Nat.mod_eq_of_lt (by omega), Nat.mod_eq_of_lt (by omega)]
      omega
    · have hba : b.val < a.val := by omega
      rw [Nat.mod_eq_of_lt (by omega), Nat.mod_eq_of_lt (by omega)]
      omega
  · have han : a.val + 1 = n := by omega
    have hmod : (a.val + 1) % n = 0 := by rw [han, Nat.mod_self]
    rw [hmod]
    have hbn : b.val < a.val := by omega
    have e1 : b.val + n - a.val = b.val + 1 := by omega
    have e2 : b.val + n - 0 = b.val + n := by omega
    rw [e1, e2, Nat.mod_eq_of_lt (by omega), Nat.add_mod_right,
      Nat.mod_eq_of_lt (by omega)]

theorem ringList_nil {n : ℕ} [NeZero n] (a : Fin n) : ringList a a = [] := by
  unfold ringList
  rw [ringDist_self]
  rfl

theorem ringList_cons {n : ℕ} [NeZero n] (a b : Fin n) (h : a ≠ b) :
    ringList a b = a :: ringList (ringNext a) b := by
  unfold ringList
  rw [ringDist_succ a b h]
  rfl

theorem releaseDda_filePosition {n : ℕ} (ddas : Fin n → DdaRec) (i j : Fin n) :
    (releaseDda ddas i j).filePosition = (ddas j).filePosition := by
  unfold releaseDda Function.update
  by_cases h : j = i <;> simp [h]

theorem fPosFold_congr {n : ℕ} (d1 d2 : Fin n → DdaRec)
    (h : ∀ i, (d1 i).filePosition = (d2 i).filePosition) (fPos : ℕ)
    (l : List (Fin n)) : fPosFold d1 fPos l = fPosFold d2 fPos l := by
  induction l generalizing fPos with
  | nil => rfl
  | cons x xs ih => simp only [fPosFold, List.foldl_cons, h x] at ih ⊢; exact ih _

theorem pauseReleaseLoop_spec {n : ℕ} [NeZero n] (fuel : ℕ) :
    ∀ (ddas : Fin n → DdaRec) (fPos : ℕ) (i stop : Fin n), i ≠ stop →
      ringDist i stop ≤ fuel →
      pauseReleaseLoop fuel ddas fPos i stop
        = (releaseFold ddas (ringList i stop),
           fPosFold ddas fPos (ringList i stop),
           ringList i stop) := by
  induction fuel with
  | zero =>
    intro ddas fPos i stop hne hle
    rw [ringDist_succ i stop hne] at hle
    omega
  | succ fuel ih =>
    intro ddas fPos i stop hne hle
    rw [ringList_cons i stop hne]
    by_cases hj : ringNext i = stop
    · have hdist : ringDist (ringNext i) stop = 0 := by rw [hj]; exact ringDist_self stop
      have : ringList (ringNext i) stop = [] := by
        unfold ringList
        rw [hdist]
        rfl
      rw [this]
      simp [pauseReleaseLoop, hj, releaseFold, fPosFold]
    · have hle' : ringDist (ringNext i) stop ≤ fuel := by
        rw [ringDist_succ i stop hne] at hle
        omega
      have hstep := ih (releaseDda ddas i)
        (if fPos = noFilePosition then (ddas i).filePosition else fPos)
        (ringNext i) stop hj hle'
      simp only [pauseReleaseLoop, hj, ite_false]
      rw [hstep]
      simp only [Prod.mk.injEq]
      refine ⟨rfl, ?_, trivial⟩
      rw [show fPosFold ddas fPos (i :: ringList (ringNext i) stop)
          = fPosFold ddas (if fPos = noFilePosition then (ddas i).filePosition else fPos)
            (ringList (ringNext i) stop) from rfl]
      exact fPosFold_congr _ _ (releaseDda_filePosition ddas i) _ _

theorem fPosFold_firstFilePos {n : ℕ} (ddas : Fin n → DdaRec) (l : List (Fin n)) :
    fPosFold ddas noFilePosition l
      = firstFilePos (l.map (fun i => (ddas i).filePosition)) := by
  induction l with
  | nil => rfl
  | cons x xs ih =>
    have hstep : fPosFold ddas noFilePosition (x :: xs)
        = fPosFold ddas ((ddas x).filePosition) xs := by
      simp [fPosFold]
    rw [hstep]
    by_cases hx : (ddas x).filePosition = noFilePosition
    · rw [hx, ih]
      simp [firstFilePos, List.filter_cons, hx]
    · have hconst : ∀ (f : ℕ) (l' : List (Fin n)), f ≠ noFilePosition →
          fPosFold ddas f l' = f := by
        intro f l' hf
        induction l' with
        | nil => rfl
        | cons y ys ihy => simpa [fPosFold, hf] using ihy
      rw [hconst _ _ hx]
      simp [firstFilePos, List.filter_cons, hx]

theorem releaseFold_mem {n : ℕ} [DecidableEq (Fin n)] (ddas : Fin n → DdaRec)
    (l : List (Fin n)) :
    (∀ i ∈ l, (releaseFold ddas l i).state = DdaState.empty) ∧
    (∀ i, i ∉ l → releaseFold ddas l i = ddas i) := by
  induction l generalizing ddas with
  | nil => exact ⟨fun i hi => absurd hi (List.not_mem_nil i), fun i _ => rfl⟩
  | cons x xs ih =>
    constructor
    · intro i hi
      rcases List.mem_cons.mp hi with hix | hixs
      · subst hix
        by_cases hmem : i ∈ xs
        · exact (ih (releaseDda ddas i)).1 i hmem
        · have := (ih (releaseDda ddas i)).2 i hmem
          simp only [releaseFold, List.foldl_cons] at *
          rw [this]
          unfold releaseDda
          simp [Function.update]
      · exact (ih (releaseDda ddas x)).1 i hixs
    · intro i hi
      rw [List.mem_cons, not_or] at hi
      have h2 := (ih (releaseDda ddas x)).2 i hi.2
      simp only [releaseFold, List.foldl_cons] at *
      rw [h2]
      unfold releaseDda
      simp [Function.update, hi.1]

theorem ringList_eq_nil {n : ℕ} [NeZero n] (a b : Fin n) :
    ringList a b = [] ↔ a = b := by
  constructor
  · intro h
    by_contra hne
    rw [ringList_cons a b hne] at h
    exact List.cons_ne_nil _ _ h
  · intro h
    subst h
    exact ringList_nil a

theorem ringDist_lt {n : ℕ} [NeZero n] (a b : Fin n) : ringDist a b < n :=
  Nat.mod_lt _ (Nat.pos_of_ne_zero (NeZero.ne n))

/-- Claim C4 (amended): when `PausePrint` runs with an executing move whose
`CanPause()` holds, the add pointer becomes the current move's successor;
the returned file position is that of the first skipped move that records
one (`noFilePosition` entries are passed over, and `noFilePosition` is
returned when no moves are skipped or none records a position); when moves
are skipped the output positions are the end coordinates and requested
feed rate of the current move (the last move still executed), otherwise
the positions output is left alone; and exactly the skipped descriptors —
the ring interval from the current move's successor up to the old add
pointer — are released, in ring order. -/
theorem pausePrint_currentDda_canPause {n : ℕ} [NeZero n] (m : MoveState n)
    (c : Fin n) (hc : m.currentDda = some c) (hp : (m.ddas c).canPause = true) :
    ∃ r : PauseResult n, m.PausePrint = some r ∧
      r.finalState.addPointer = ringNext c ∧
      r.finalState.getPointer = m.getPointer ∧
      r.fPos = firstFilePos ((ringList (ringNext c) m.addPointer).map
        (fun i => (m.ddas i).filePosition)) ∧
      (ringNext c = m.addPointer → r.fPos = noFilePosition ∧ r.positions = none) ∧
      (ringNext c ≠ m.addPointer →
        r.positions = some ((m.ddas c).endCoordinates, (m.ddas c).requestedSpeed)) ∧
      r.released = ringList (ringNext c) m.addPointer ∧
      (∀ i ∈ ringList (ringNext c) m.addPointer,
        (r.finalState.ddas i).state = DdaState.empty) ∧
      (∀ i, i ∉ ringList (ringNext c) m.addPointer →
        r.finalState.ddas i = m.ddas i) := by
  by_cases h : ringNext c = m.addPointer
  · refine ⟨{ fPos := noFilePosition, positions := none, released := [],
              finalState := { m with addPointer := ringNext c } },
      ?_, rfl, rfl, ?_, ?_, ?_, ?_, ?_, ?_⟩
    · unfold MoveState.PausePrint
      simp only [hc, hp, if_true, h, ne_eq, not_true_eq_false, ite_false]
    · rw [show ringList (ringNext c) m.addPointer = [] from (ringList_eq_nil _ _).mpr h]
      rfl
    · exact fun _ => ⟨rfl, rfl⟩
    · exact fun hne => absurd h hne
    · rw [show ringList (ringNext c) m.addPointer = [] from (ringList_eq_nil _ _).mpr h]
    · intro i hi
      rw [(ringList_eq_nil _ _).mpr h] at hi
      exact absurd hi (List.not_mem_nil i)
    · intro i _
      rfl
  · have hloop := pauseReleaseLoop_spec (n := n) n m.ddas noFilePosition
      (ringNext c) m.addPointer h (le_of_lt (ringDist_lt _ _))
    refine ⟨{ fPos := fPosFold m.ddas noFilePosition (ringList (ringNext c) m.addPointer),
              positions := some ((m.ddas c).endCoordinates, (m.ddas c).requestedSpeed),
              released := ringList (ringNext c) m.addPointer,
              finalState := { m with
              ddas := releaseFold m.ddas (ringList (ringNext c) m.addPointer),
              addPointer := ringNext c } },
      ?_, rfl, rfl, ?_, ?_, ?_, rfl, ?_, ?_⟩
    · unfold MoveState.PausePrint
      simp only [hc, hp, if_true, h, ne_eq, not_false_eq_true, ite_true, hloop]
    · exact fPosFold_firstFilePos m.ddas _
    · exact fun he => absurd he h
    · exact fun _ => rfl
    · exact (releaseFold_mem m.ddas _).1
    · exact (releaseFold_mem m.ddas _).2

/-- Witness for claim C4: on `mC4w` the pause returns file position 11
(the first skipped move), reports the current move's end coordinates and
feed rate, and releases exactly slots 1 and 2 in ring order. -/
theorem pausePrint_currentDda_canPause_witness :
    ∃ r : PauseResult 4, mC4w.PausePrint = some r ∧
      r.finalState.addPointer = ringNext 0 ∧
      r.finalState.getPointer = mC4w.getPointer ∧
      r.fPos = firstFilePos ((ringList (ringNext 0) mC4w.addPointer).map
        (fun i => (mC4w.ddas i).filePosition)) ∧
      (ringNext 0 = mC4w.addPointer → r.fPos = noFilePosition ∧ r.positions = none) ∧
      (ringNext 0 ≠ mC4w.addPointer →
        r.positions = some ((mC4w.ddas 0).endCoordinates, (mC4w.ddas 0).requestedSpeed)) ∧
      r.released = ringList (ringNext 0) mC4w.addPointer ∧
      (∀ i ∈ ringList (ringNext 0) mC4w.addPointer,
        (r.finalState.ddas i).state = DdaState.empty) ∧
      (∀ i, i ∉ ringList (ringNext 0) mC4w.addPointer →
        r.finalState.ddas i = mC4w.ddas i) :=
  pausePrint_currentDda_canPause mC4w 0 rfl rfl

/-- Counterexample to claim C4 as stated: on `mC4x` moves are skipped and
the first skipped move's stored file position is `noFilePosition`, yet
`PausePrint` returns 100 (the second skipped move's position), not the
first skipped move's file position. -/
theorem pausePrint_fPos_counterexample :
    (mC4x.PausePrint).map (fun r => r.fPos) = some 100 ∧
    (mC4x.PausePrint).map (fun r => r.released) = some [(1 : Fin 4), 2] ∧
    (mC4x.ddas 1).filePosition = noFilePosition ∧
    (100 : ℕ) ≠ noFilePosition := by
  refine ⟨rfl, rfl, rfl, by norm_num [noFilePosition]⟩

theorem backList_eq_map {n : ℕ} [NeZero n] :
    ∀ (m : ℕ) (a : Fin n), backList a m = (List.range m).map
      (fun k => ⟨(a.val + (n - 1) * (k + 1)) % n,
        Nat.mod_lt _ (Nat.pos_of_ne_zero (NeZero.ne n))⟩) := by
  intro m
  induction m with
  | zero => intro a; rfl
  | succ m ih =>
    intro a
    rw [show backList a (m + 1) = ringPrev a :: backList (ringPrev a) m from rfl,
      ih (ringPrev a), List.range_succ_eq_map, List.map_cons, List.map_map]
    refine List.cons_eq_cons.mpr ⟨?_, ?_⟩
    · apply Fin.ext
      show (ringPrev a).val = (a.val + (n - 1) * (0 + 1)) % n
      simp [ringPrev]
    · apply List.map_congr_left
      intro k _
      apply Fin.ext
      show ((ringPrev a).val + (n - 1) * (k + 1)) % n
        = (a.val + (n - 1) * (k + 1 + 1)) % n
      show ((a.val + (n - 1)) % n + (n - 1) * (k + 1)) % n
        = (a.val + (n - 1) * (k + 1 + 1)) % n
      rw [Nat.mod_add_mod]
      congr 1
      ring

theorem mem_backList_self {n : ℕ} [NeZero n] (a : Fin n) : a ∈ backList a n := by
  have hn : 0 < n := Nat.pos_of_ne_zero (NeZero.ne n)
  rw [backList_eq_map n a]
  refine List.mem_map.mpr ⟨n - 1, List.mem_range.mpr (by omega), ?_⟩
  apply Fin.ext
  show (a.val + (n - 1) * (n - 1 + 1)) % n = a.val
  have h1 : n - 1 + 1 = n := by omega
  rw [h1, Nat.add_mul_mod_self_right, Nat.mod_eq_of_lt a.isLt]

theorem spinWalk_eq_walkAccum {n : ℕ} [NeZero n] (ddas : Fin n → DdaRec) :
    ∀ (fuel : ℕ) (a : Fin n) (u p : ℚ),
      (backList a fuel).takeWhile
          (fun i => decide ((ddas i).state = DdaState.provisional))
        ≠ backList a fuel →
      spinWalk fuel ddas a u p
        = walkAccum ddas ((backList a fuel).takeWhile
            (fun i => decide ((ddas i).state = DdaState.provisional))) u p := by
  intro fuel
  induction fuel with
  | zero => intro a u p h; exact absurd rfl h
  | succ fuel ih =>
    intro a u p h
    rw [show backList a (fuel + 1) = ringPrev a :: backList (ringPrev a) fuel from rfl] at h ⊢
    by_cases hd : (ddas (ringPrev a)).state = DdaState.provisional
    · rw [List.takeWhile_cons_of_pos (by simpa using hd)] at h ⊢
      have hinner : (backList (ringPrev a) fuel).takeWhile
          (fun i => decide ((ddas i).state = DdaState.provisional))
          ≠ backList (ringPrev a) fuel := fun he => h (by rw [he])
      rw [show spinWalk (fuel + 1) ddas a u p
          = spinWalk fuel ddas (ringPrev a) (u + p) ((ddas (ringPrev a)).calcTime) from by
        simp [spinWalk, hd]]
      rw [ih (ringPrev a) (u + p) ((ddas (ringPrev a)).calcTime) hinner]
      rfl
    · rw [List.takeWhile_cons_of_neg (by simpa using hd)]
      simp [spinWalk, hd, walkAccum]

theorem walkAccum_spec {n : ℕ} (ddas : Fin n → DdaRec) :
    ∀ (l : List (Fin n)) (u p : ℚ),
      walkAccum ddas l u p
        = (u + p + (l.map (fun i => (ddas i).calcTime)).sum
             - (l.getLast?.elim p (fun d => (ddas d).calcTime)),
           l.getLast?.elim p (fun d => (ddas d).calcTime)) := by
  intro l
  induction l with
  | nil => intro u p; simp [walkAccum]
  | cons d ds ih =>
    intro u p
    rw [show walkAccum ddas (d :: ds) u p
        = walkAccum ddas ds (u + p) ((ddas d).calcTime) from rfl, ih]
    cases ds with
    | nil =>
      simp only [List.getLast?_nil, Option.elim, List.map_nil, List.sum_nil,
        List.getLast?_singleton, List.map_cons, List.sum_cons, Prod.mk.injEq]
      exact ⟨by ring, trivial⟩
    | cons e es =>
      have hlast : (d :: e :: es).getLast? = (e :: es).getLast? := by
        simp [List.getLast?_cons_cons]
      obtain ⟨w, hw⟩ : ∃ w, (e :: es).getLast? = some w :=
        ⟨(e :: es).getLast (by simp), List.getLast?_eq_getLast _ _⟩
      rw [hlast, hw]
      simp only [Option.elim, List.map_cons, List.sum_cons, Prod.mk.injEq]
      exact ⟨by ring, trivial⟩

theorem spinWalk_full {n : ℕ} [NeZero n] (m : MoveState n)
    (hempty : (m.ddas m.addPointer).state = DdaState.empty) :
    spinWalk n m.ddas m.addPointer 0 0
      = (sumTimes m (provisionalRun m).dropLast,
         sumTimes m (provisionalRun m) - sumTimes m (provisionalRun m).dropLast) := by
  have hterm : (backList m.addPointer n).takeWhile
      (fun i => decide ((m.ddas i).state = DdaState.provisional))
      ≠ backList m.addPointer n := by
    intro he
    have hmem : m.addPointer ∈ (backList m.addPointer n).takeWhile
        (fun i => decide ((m.ddas i).state = DdaState.provisional)) := by
      rw [he]
      exact mem_backList_self m.addPointer
    have := List.mem_takeWhile_imp hmem
    rw [decide_eq_true_eq] at this
    rw [hempty] at this
    exact absurd this (by decide)
  rw [spinWalk_eq_walkAccum m.ddas n m.addPointer 0 0 hterm]
  rw [show (backList m.addPointer n).takeWhile
      (fun i => decide ((m.ddas i).state = DdaState.provisional))
      = provisionalRun m from rfl]
  rw [walkAccum_spec]
  cases hrun : provisionalRun m with
  | nil => simp [sumTimes]
  | cons x xs =>
    have hne : x :: xs ≠ [] := by simp
    have hcat := List.dropLast_concat_getLast hne
    have hsplit : sumTimes m (x :: xs)
        = sumTimes m ((x :: xs).dropLast)
          + (m.ddas ((x :: xs).getLast hne)).calcTime := by
      conv_lhs => rw [← hcat]
      simp [sumTimes]
    rw [List.getLast?_eq_getLast _ hne]
    simp only [Option.elim, Prod.mk.injEq]
    simp only [sumTimes] at hsplit ⊢
    constructor
    · rw [hsplit]; ring
    · rw [hsplit]; ring

/-- Claim C5: `Move::Spin` polls a new move from the front end exactly when
no pause is pending, the descriptor at the add pointer is free, and either
the summed duration of the walked provisional moves excluding the last one
walked (the oldest provisional) is below 0.5 seconds, or the total
duration of all walked provisional moves is below 2.0 seconds. -/
theorem spin_admission {n : ℕ} [NeZero n] (m : MoveState n) :
    m.spinAcceptsMove = true ↔
      (m.addNoMoreMoves = false ∧
       (m.ddas m.addPointer).state = DdaState.empty ∧
       (sumTimes m (provisionalRun m).dropLast < 1 / 2 ∨
        sumTimes m (provisionalRun m) < 2)) := by
  unfold MoveState.spinAcceptsMove
  simp only [Bool.and_eq_true, Bool.not_eq_true', decide_eq_true_eq]
  have hkey : ∀ a b : ℚ, a + (b - a) = b := fun a b => by ring
  constructor
  · rintro ⟨⟨h1, h2⟩, h3⟩
    refine ⟨h1, h2, ?_⟩
    rw [spinWalk_full m h2] at h3
    simpa [hkey] using h3
  · rintro ⟨h1, h2, h3⟩
    refine ⟨⟨h1, h2⟩, ?_⟩
    rw [spinWalk_full m h2]
    simpa [hkey] using h3

/-- Witness for claim C5: on `mC5w` the walked provisional run is slots
`[2, 1]`, the unprepared time excluding the last walked is 0.25 < 0.5, and
`Spin` accepts a new move. -/
theorem spin_admission_witness :
    mC5w.spinAcceptsMove = true ∧
    (mC5w.addNoMoreMoves = false ∧
     (mC5w.ddas mC5w.addPointer).state = DdaState.empty ∧
     (sumTimes mC5w (provisionalRun mC5w).dropLast < 1 / 2 ∨
      sumTimes mC5w (provisionalRun mC5w) < 2)) := by
  have hrun : provisionalRun mC5w = [2, 1] := by
    show ((backList (3 : Fin 4) 4).takeWhile _) = _
    norm_num [backList, ringPrev, mC5w, mkDda, List.takeWhile]
    rfl
  have h : mC5w.addNoMoreMoves = false ∧
      (mC5w.ddas mC5w.addPointer).state = DdaState.empty ∧
      (sumTimes mC5w (provisionalRun mC5w).dropLast < 1 / 2 ∨
       sumTimes mC5w (provisionalRun mC5w) < 2) := by
    refine ⟨rfl, rfl, Or.inl ?_⟩
    rw [hrun]
    norm_num [sumTimes, mC5w, mkDda]
  exact ⟨(spin_admission mC5w).mpr h, h⟩

/-- With `evaluate` clear the parse never consults the object-model
environment: identifier lookup is replaced by null. -/
theorem parseIdentifierExpression_env_indep (env env2 : String → Option EVal)
    (ctx : ParserContext) (s : List Char) (w : Bool) :
    parseIdentifierExpression env ctx s false w =
      parseIdentifierExpression env2 ctx s false w := by
  simp [parseIdentifierExpression]

/-- With `evaluate` clear, `parseInternal` and `parseBinOps` are
independent of the object-model environment: every recursive `evaluate`
flag stays clear, so no lookup ever happens. -/
theorem parse_env_indep (env env2 : String → Option EVal) (ctx : ParserContext) :
    ∀ fuel : ℕ,
      (∀ s p, parseInternal env ctx fuel s false p =
        parseInternal env2 ctx fuel s false p) ∧
      (∀ v s p, parseBinOps env ctx fuel v s false p =
        parseBinOps env2 ctx fuel v s false p) := by
  intro fuel
  induction fuel with
  | zero => exact ⟨fun s p => rfl, fun v s p => rfl⟩
  | succ n ih =>
    obtain ⟨ih1, ih2⟩ := ih
    have hid := parseIdentifierExpression_env_indep env env2 ctx
    constructor
    · intro s p
      simp only [parseInternal, Bool.false_and, ih1, ih2, hid]
    · intro v s p
      simp only [parseBinOps, Bool.false_and, Bool.not_false, Bool.false_eq_true,
        Bool.and_false, ih1, ih2, hid]

/-- C7 counterexample: in `false & -b` the right operand is parsed with
`evaluate` clear, yet the whole parse FAILS, although the operand has no
syntax error and evaluates fine on its own (`-b` is the integer −1 in the
same environment).  The unary minus of `ParseInternal` throws
unconditionally when its operand is not numeric, and with `evaluate`
clear the identifier `b` yields null, so a purely semantic condition in
the unevaluated branch is still reported, contradicting the claim that
semantic errors there are suppressed and only syntax errors surface. -/
theorem parse_shortcircuit_counterexample :
    ParseExpression envC7 ctxC7 "false & -b" true =
      .error "expected numeric value after unary minus" ∧
    ParseExpression envC7 ctxC7 "-b" true = .ok (.int (-1)) :=
  ⟨rfl, rfl⟩

/-- C7 (amended): for `&`, `|` and `? :` the operand not needed for the
result is still parsed but with `evaluate` clear; in that mode the parse
never consults the object-model environment (first conjunct), so
undefined identifiers and conversion mismatches at the
evaluation-guarded sites are suppressed, while syntax errors are still
reported; for `a ? b : c` exactly one of `b`, `c` is parsed with
`evaluate` set.  However sites that throw regardless of `evaluate`
(such as the unary operators) still fail in the unevaluated branch.
The remaining conjuncts are the concrete behaviours: undefined `nope`
suppressed after `false &` / `true |` and in the dead ternary branch,
reported in the live ones; a syntax error in the dead operand still
fails the parse; a type mismatch in a dead operand is suppressed
although the same expression alone fails. -/
theorem parse_shortcircuit_amended :
    (∀ env env2 ctx fuel s p,
      parseInternal env ctx fuel s false p =
        parseInternal env2 ctx fuel s false p) ∧
    ParseExpression envC7 ctxC7 "false & nope" true = .ok (.bool false) ∧
    ParseExpression envC7 ctxC7 "true | nope" true = .ok (.bool true) ∧
    ParseExpression envC7 ctxC7 "true & nope" true = .error "unknown value" ∧
    ParseExpression envC7 ctxC7 "false & (" true = .error "expected an expression" ∧
    ParseExpression envC7 ctxC7 "true ? 1 : nope" true = .ok (.int 1) ∧
    ParseExpression envC7 ctxC7 "false ? nope : 2" true = .ok (.int 2) ∧
    ParseExpression envC7 ctxC7 "true ? nope : 2" true = .error "unknown value" ∧
    ParseExpression envC7 ctxC7 "false ? 1 : nope" true = .error "unknown value" ∧
    ParseExpression envC7 ctxC7 "true ? 1 : (2 & true)" true = .ok (.int 1) ∧
    ParseExpression envC7 ctxC7 "2 & true" true = .error "expected Boolean operand" :=
  ⟨fun env env2 ctx fuel s p => (parse_env_indep env env2 ctx fuel).1 s p,
    rfl, rfl, rfl, rfl, rfl, rfl, rfl, rfl, rfl, rfl⟩
